import Mathlib

set_option maxRecDepth 100000
set_option synthInstance.maxSize 2000

/-
  Shallow embedding of the trace-comparison scripts in text/columns/
  (blocks.py, block_pools.py, block_lines.py, blocklist.py, pools.py,
  words.py, text.py).  Python regexes are modelled by hand-written
  scanners over lists of characters; the module-level state machines
  become explicit folds over the input lines returning Except values,
  where every Python assert that can fail at runtime becomes an error
  constructor.  Floating point values parsed from the traces are
  modelled as rationals.
-/

namespace TraceCheck

/-- Whitespace class of the Python regex escape backslash-s (ASCII part). -/
def isWSc (c : Char) : Bool :=
  c = ' ' || c = '\t' || c = '\n' || c = '\r' || c = '\x0b' || c = '\x0c'

/-- Digit class of the Python regex escape backslash-d. -/
def isDigitc (c : Char) : Bool :=
  '0' ≤ c && c ≤ '9'

/-- Regex piece: backslash-s star (greedy, consumes the whole run). -/
def ws0 : List Char → List Char
  | [] => []
  | c :: cs => if isWSc c then ws0 cs else c :: cs

/-- Regex piece: backslash-s plus. -/
def ws1 : List Char → Option (List Char)
  | [] => none
  | c :: cs => if isWSc c then some (ws0 cs) else none

/-- Accumulate a run of digits into a natural number. -/
def digitsAux : List Char → Nat → Nat × List Char
  | [], acc => (acc, [])
  | c :: cs, acc =>
      if isDigitc c then digitsAux cs (acc * 10 + (c.toNat - '0'.toNat))
      else (acc, c :: cs)

/-- Regex piece: backslash-d plus (greedy). -/
def digits1 : List Char → Option (Nat × List Char)
  | [] => none
  | c :: cs =>
      if isDigitc c then some (digitsAux cs (c.toNat - '0'.toNat)) else none

/-- Regex piece: -?backslash-d plus. -/
def signedInt1 (cs : List Char) : Option (Int × List Char) :=
  match cs with
  | '-' :: rest => (digits1 rest).map (fun p => (-(p.1 : Int), p.2))
  | _ => (digits1 cs).map (fun p => ((p.1 : Int), p.2))

/-- Regex piece: a literal string. -/
def lit : List Char → List Char → Option (List Char)
  | [], cs => some cs
  | _ :: _, [] => none
  | p :: ps, c :: cs => if p = c then lit ps cs else none

/-- Regex piece: one or more colons (the :+ in the block header patterns). -/
def colons1 : List Char → Option (List Char)
  | ':' :: cs => some (colons0 cs)
  | _ => none
where colons0 : List Char → List Char
  | ':' :: cs => colons0 cs
  | cs => cs

/-- Try prefixes of a non-whitespace run from the longest down, resuming the
rest of the pattern each time: this is how the regex engine backtracks a
greedy non-whitespace-plus group against the pattern that follows it. -/
def tokTry {α : Type} (next : List Char → Option α) (run rest : List Char) :
    Nat → Option (String × α)
  | 0 => none
  | k + 1 =>
      match next (run.drop (k + 1) ++ rest) with
      | some a => some (String.mk (run.take (k + 1)), a)
      | none => tokTry next run rest k

/-- Regex piece: a greedy non-whitespace-plus capture group followed by the
continuation pattern given as next. -/
def tokB {α : Type} (next : List Char → Option α) (cs : List Char) :
    Option (String × α) :=
  let run := cs.takeWhile (fun c => !(isWSc c))
  let rest := cs.dropWhile (fun c => !(isWSc c))
  tokTry next run rest run.length

/-- re.search: try an anchored match at every position, leftmost first. -/
def searchPos {α : Type} (m : List Char → Option α) : List Char → Option α
  | [] => m []
  | c :: cs =>
      match m (c :: cs) with
      | some a => some a
      | none => searchPos m cs

/-- Rightmost position where the anchored matcher succeeds, together with the
characters before it: this resolves a greedy dot-star capture group followed
by a fixed tail pattern. -/
def searchLastPre {α : Type} (m : List Char → Option α) :
    List Char → Option (List Char × α)
  | [] => (m []).map (fun a => ([], a))
  | c :: cs =>
      match searchLastPre m cs with
      | some (pre, a) => some (c :: pre, a)
      | none => (m (c :: cs)).map (fun a => ([], a))

/-- Leftmost position where the anchored matcher succeeds, with the characters
before it: this resolves a lazy dot-star-question capture group. -/
def searchFirstPre {α : Type} (m : List Char → Option α) :
    List Char → Option (List Char × α)
  | [] => (m []).map (fun a => ([], a))
  | c :: cs =>
      match m (c :: cs) with
      | some a => some ([], a)
      | none => (searchFirstPre m cs).map (fun p => (c :: p.1, p.2))

/-- A decimal number num over ten-to-the-exp, the exact value of a decimal
token of the traces as read by the Python float() call.  The representation
is not normalized (14354 over 100 stays as parsed); all comparisons used by
the scripts are numeric, defined below by cross multiplication over the
integers, and Dec.toQ in the theorem section links them to the rational
value. -/
structure Dec where
  num : Int
  exp : Nat
  deriving DecidableEq, Repr

namespace Dec

/-- Numeric equality of two decimal values (the Python == on floats):
cross multiplication. -/
def deq (a b : Dec) : Bool :=
  decide (a.num * (10 : Int) ^ b.exp = b.num * (10 : Int) ^ a.exp)

/-- Numeric test abs (a - b) < t for a positive decimal tolerance t (the
equal functions of the scripts): cross multiplication. -/
def absLt (a b t : Dec) : Bool :=
  decide ((((a.num * (10 : Int) ^ b.exp - b.num * (10 : Int) ^ a.exp).natAbs :
    Int)) * (10 : Int) ^ t.exp < t.num * (10 : Int) ^ (a.exp + b.exp))

/-- The decimal value of a natural number (float of a digits group). -/
def ofNat (n : Nat) : Dec := ⟨n, 0⟩

/-- The rational value of a decimal number, used by the theorems to relate
the integer cross-multiplication tests to numeric statements. -/
def toQ (d : Dec) : ℚ := (d.num : ℚ) / (10 : ℚ) ^ d.exp

end Dec

/-- Collect leading digits as a Nat together with how many there were. -/
def digitRun : List Char → Nat → Nat → Nat × Nat × List Char
  | [], acc, k => (acc, k, [])
  | c :: cs, acc, k =>
      if isDigitc c then digitRun cs (acc * 10 + (c.toNat - '0'.toNat)) (k + 1)
      else (acc, k, c :: cs)

/-- Model of the Python float() call on the numeric tokens of the traces:
an optional sign, an integer part, an optional dot and fractional digits.
Returns none when the token is not of this shape (float would raise). -/
def parseDec (s : String) : Option Dec :=
  let core : List Char → Option Dec := fun cs =>
    match digits1 cs with
    | none => none
    | some (ip, rest) =>
        match rest with
        | [] => some ⟨ip, 0⟩
        | '.' :: rest2 =>
            let p := digitRun rest2 0 0
            if p.2.2 = [] then some ⟨ip * (10 : Int) ^ p.2.1 + p.1, p.2.1⟩
            else none
        | _ => none
  match s.data with
  | '-' :: cs => (core cs).map (fun d => ⟨-d.num, d.exp⟩)
  | cs => core cs

/-- Python line[:-1]: drop the final character of the raw line. -/
def chomp (s : String) : String := String.mk s.data.dropLast

/-- Python strip() on the whitespace class (the String.trim of the library
does not reduce definitionally, so the scripts strip is modelled directly). -/
def pyStrip (s : String) : String :=
  String.mk (((s.data.dropWhile isWSc).reverse.dropWhile isWSc).reverse)

/-- The for-loop over the raw lines of a file: apply the step function to
each line in order, stopping at the first error (an uncaught Python
exception aborts the scan). -/
def runList {σ ε : Type} (f : σ → String → Except ε σ) :
    σ → List String → Except ε σ
  | st, [] => .ok st
  | st, raw :: rest =>
      match f st raw with
      | .error e => .error e
      | .ok st2 => runList f st2 rest

-- Decidable equality of Except outcomes, used to state concrete
-- evaluations of the embedded scans and comparators.
deriving instance DecidableEq for Except

/-! ### Models of the individual regex patterns

Each matcher translates one compiled pattern from the source scripts.
Greedy groups followed by a fixed tail are resolved by trying the longest
prefix first (tokTry, searchLastPre); the lazy group of the blocklist title
pattern is resolved by trying the shortest prefix first (searchFirstPre).
-/

/-- Anchored model of reBlk0: the word textBlock and a colon, whitespace, a
greedy capture of the header text, whitespace, blk= and digits. -/
def matchBlk0core (cs : List Char) : Option String :=
  (lit "textBlock:".data cs).bind fun r =>
  (ws1 r).bind fun r2 =>
  (searchLastPre (fun s =>
      (ws1 s).bind fun t =>
      (lit "blk=".data t).bind digits1) r2).map fun p =>
  String.mk p.1

/-- re.search with the reBlk0 pattern of blocks.py, block_pools.py and
block_lines.py; returns group 1, the header text. -/
def matchBlk0 (s : String) : Option String := searchPos matchBlk0core s.data

/-- The brace-delimited geometry group shared by the block, line and word
patterns: open brace, ws star, token, ws plus, token, ws plus, token,
ws star, token, ws star, close brace. -/
def braceGroup (cs : List Char) : Option (String × String × String × String × List Char) :=
  (lit ['{'] cs).bind fun r =>
  (tokB ws1 (ws0 r)).bind fun p3 =>
  (tokB ws1 p3.2).bind fun p4 =>
  (tokB (fun s => some (ws0 s)) p4.2).bind fun p5 =>
  (tokB (fun s => lit ['}'] (ws0 s)) p5.2).bind fun p6 =>
  some (p3.1, p4.1, p5.1, p6.1, p6.2)

/-- Common prefix of the block header patterns, up to the closing brace:
the word block, index digits, one or more colons, rot= digits and the
geometry group. -/
def blockHeadPre (cs : List Char) :
    Option (Nat × Nat × String × String × String × String × List Char) :=
  (lit "block".data cs).bind fun r =>
  (ws1 r).bind fun r2 =>
  (digits1 r2).bind fun pidx =>
  (colons1 pidx.2).bind fun r3 =>
  (ws1 r3).bind fun r4 =>
  (lit "rot=".data r4).bind fun r5 =>
  (digits1 r5).bind fun prot =>
  (ws1 prot.2).bind fun r6 =>
  (braceGroup r6).map fun pg =>
  (pidx.1, prot.1, pg.1, pg.2.1, pg.2.2.1, pg.2.2.2.1, pg.2.2.2.2)

/-- Anchored model of the blocks.py and blocklist.py reBlock pattern: the
common prefix, then dot-star (greedy) and lines= digits. -/
def matchBlockBcore (cs : List Char) :
    Option (Nat × Nat × String × String × String × String × Nat) :=
  (blockHeadPre cs).bind fun h =>
  (searchLastPre (fun s => (lit "lines=".data s).bind digits1) h.2.2.2.2.2.2).map
    fun pl =>
  (h.1, h.2.1, h.2.2.1, h.2.2.2.1, h.2.2.2.2.1, h.2.2.2.2.2.1, pl.2.1)

/-- re.search with the reBlock pattern of blocks.py and blocklist.py. -/
def matchBlockB (s : String) :
    Option (Nat × Nat × String × String × String × String × Nat) :=
  searchPos matchBlockBcore s.data

/-- Anchored model of the block_pools.py and block_lines.py reBlock pattern:
the common prefix, then dot-star, lines= signed digits, whitespace,
pools= signed digits. -/
def matchBlockLPcore (cs : List Char) :
    Option (Nat × Nat × String × String × String × String × Int × Int) :=
  (blockHeadPre cs).bind fun h =>
  (searchLastPre (fun s =>
      (lit "lines=".data s).bind fun t =>
      (signedInt1 t).bind fun pl =>
      (ws1 pl.2).bind fun t2 =>
      (lit "pools=".data t2).bind fun t3 =>
      (signedInt1 t3).map fun pp => (pl.1, pp.1)) h.2.2.2.2.2.2).map fun pr =>
  (h.1, h.2.1, h.2.2.1, h.2.2.2.1, h.2.2.2.2.1, h.2.2.2.2.2.1, pr.2.1, pr.2.2)

/-- re.search with the reBlock pattern of block_pools.py and block_lines.py. -/
def matchBlockLP (s : String) :
    Option (Nat × Nat × String × String × String × String × Int × Int) :=
  searchPos matchBlockLPcore s.data

/-- Anchored model of rePool: the word pool, index digits, colon,
baseIdx= signed digits, whitespace, len= digits. -/
def matchPoolCore (cs : List Char) : Option (Nat × Int × Nat) :=
  (lit "pool".data cs).bind fun r =>
  (ws1 r).bind fun r2 =>
  (digits1 r2).bind fun pidx =>
  (lit [':'] (ws0 pidx.2)).bind fun r3 =>
  (lit "baseIdx=".data (ws0 r3)).bind fun r4 =>
  (signedInt1 r4).bind fun pb =>
  (ws1 pb.2).bind fun r5 =>
  (lit "len=".data r5).bind fun r6 =>
  (digits1 r6).map fun pn =>
  (pidx.1, pb.1, pn.1)

/-- re.search with the rePool pattern of block_pools.py and block_lines.py. -/
def matchPool (s : String) : Option (Nat × Int × Nat) :=
  searchPos matchPoolCore s.data

/-- The quoted text payload: an opening double quote, a greedy dot-star
capture, and the rightmost closing double quote. -/
def quotedAt (cs : List Char) : Option String :=
  (lit ['"'] cs).bind fun r =>
  (searchLastPre (fun s => lit ['"'] s) r).map fun p => String.mk p.1

/-- The quoted text payload when the pattern is anchored at the end of the
line: the closing quote may be followed only by whitespace. -/
def quotedAtEnd (cs : List Char) : Option String :=
  (lit ['"'] cs).bind fun r =>
  (searchLastPre (fun s =>
      (lit ['"'] s).bind fun t => if ws0 t = [] then some () else none) r).map
    fun p => String.mk p.1

/-- Tail shared by the line and word patterns after base=: the geometry
group as a greedy token plus brace group, then the given fontsize pattern
piece, then a greedy token and the quoted text.  Returns the base token,
the four geometry tokens, the fontsize token and the text. -/
def geomFsQuoted (fsPiece : List Char → Option (List Char)) (cs : List Char) :
    Option (String × String × String × String × String × String × String) :=
  (tokB (fun s => braceGroup (ws0 s)) cs).bind fun pb =>
  (fsPiece (ws0 pb.2.2.2.2.2)).bind fun r8 =>
  (tokB (fun s => quotedAt (ws0 s)) r8).map fun pf =>
  (pb.1, pb.2.1, pb.2.2.1, pb.2.2.2.1, pb.2.2.2.2.1, pf.1, pf.2)

/-- Fontsize piece of the block_pools.py reWord pattern: fontsize,
ws star, equals, ws star. -/
def fsPieceWord (s : List Char) : Option (List Char) :=
  (lit "fontsize".data s).bind fun t => (lit ['='] (ws0 t)).map ws0

/-- Fontsize piece of the block_lines.py and blocklist.py reLine patterns. -/
def fsPieceLower (s : List Char) : Option (List Char) :=
  lit "fontsize=".data s

/-- Fontsize piece of the blocks.py reLine pattern (capital S). -/
def fsPieceUpper (s : List Char) : Option (List Char) :=
  lit "fontSize=".data s

/-- Head of the block_pools.py reWord pattern, up to and including base=
and the ws star after it. -/
def wordSerHead (cs : List Char) : Option (Nat × List Char) :=
  (lit "word".data cs).bind fun r =>
  (ws1 r).bind fun r2 =>
  (digits1 r2).bind fun pidx =>
  (lit [':'] (ws0 pidx.2)).bind fun r3 =>
  (lit "serial".data (ws0 r3)).bind fun r4 =>
  (lit ['='] (ws0 r4)).bind fun r5 =>
  (digits1 (ws0 r5)).bind fun pser =>
  (ws1 pser.2).bind fun r6 =>
  (lit "base=".data r6).map fun r7 =>
  (pidx.1, ws0 r7)

/-- Anchored model of the block_pools.py reWord pattern (with serial=). -/
def matchWordSerCore (cs : List Char) :
    Option (Nat × String × String × String × String × String × String × String) :=
  (wordSerHead cs).bind fun ph =>
  (geomFsQuoted fsPieceWord ph.2).map fun pt => (ph.1, pt)

/-- re.search with the reWord pattern of block_pools.py. -/
def matchWordSer (s : String) :
    Option (Nat × String × String × String × String × String × String × String) :=
  searchPos matchWordSerCore s.data

/-- Head of the block_lines.py reLine pattern, up to and including base=
and the ws star after it. -/
def lineSerHead (cs : List Char) : Option (Nat × List Char) :=
  (lit "line".data cs).bind fun r =>
  (ws1 r).bind fun r2 =>
  (digits1 r2).bind fun pidx =>
  (lit [':'] (ws0 pidx.2)).bind fun r3 =>
  (lit "serial".data (ws0 r3)).bind fun r4 =>
  (lit ['='] (ws0 r4)).bind fun r5 =>
  (digits1 (ws0 r5)).bind fun pser =>
  (lit "base=".data (ws0 pser.2)).map fun r6 =>
  (pidx.1, ws0 r6)

/-- Anchored model of the block_lines.py reLine pattern (with serial= and
lowercase fontsize). -/
def matchLineSerCore (cs : List Char) :
    Option (Nat × String × String × String × String × String × String × String) :=
  (lineSerHead cs).bind fun ph =>
  (geomFsQuoted fsPieceLower ph.2).map fun pt => (ph.1, pt)

/-- re.search with the reLine pattern of block_lines.py. -/
def matchLineSer (s : String) :
    Option (Nat × String × String × String × String × String × String × String) :=
  searchPos matchLineSerCore s.data

/-- Head of the blocks.py reLine pattern, up to and including base= (no
ws star between base= and the token in this pattern). -/
def lineBHead (cs : List Char) : Option (Nat × List Char) :=
  (lit "line".data cs).bind fun r =>
  (ws1 r).bind fun r2 =>
  (digits1 r2).bind fun pidx =>
  (lit [':'] (ws0 pidx.2)).bind fun r3 =>
  (lit "base=".data (ws0 r3)).map fun r4 =>
  (pidx.1, r4)

/-- Anchored model of the blocks.py reLine pattern (no serial=, capital S in
fontSize). -/
def matchLineBcore (cs : List Char) :
    Option (Nat × String × String × String × String × String × String × String) :=
  (lineBHead cs).bind fun ph =>
  (geomFsQuoted fsPieceUpper ph.2).map fun pt => (ph.1, pt)

/-- re.search with the reLine pattern of blocks.py. -/
def matchLineB (s : String) :
    Option (Nat × String × String × String × String × String × String × String) :=
  searchPos matchLineBcore s.data

/-- Anchored model of the blocklist.py reBlkList pattern: the literal
showBlockList and colon, a lazy title capture, a colon, digits, and the end of
the line. -/
def matchBlkListCore (cs : List Char) : Option (String × Nat) :=
  (lit "showBlockList:".data cs).bind fun r =>
  (searchFirstPre (fun s =>
      (lit [':'] (ws0 s)).bind fun t =>
      (ws1 t).bind fun t2 =>
      (digits1 t2).bind fun pn =>
      if ws0 pn.2 = [] then some pn.1 else none) (ws0 r)).map fun p =>
  (String.mk p.1, p.2)

/-- re.search with the reBlkList pattern of blocklist.py. -/
def matchBlkList (s : String) : Option (String × Nat) :=
  searchPos matchBlkListCore s.data

/-- Anchored model of the text.py reText pattern: the literal doShowText
marker, a quoted payload, and the end of the line. -/
def matchTextCore (cs : List Char) : Option String :=
  (lit "@@doShowText: ".data cs).bind fun r => quotedAtEnd r

/-- re.search with the reText pattern of text.py. -/
def matchText (s : String) : Option String := searchPos matchTextCore s.data

/-- Scan errors: one constructor for each runtime-reachable Python assert or
exception in the scan functions of the scripts. -/
inductive SErr where
  | assertNoMatch (i : Nat) (line : String)
  | assertEmpty
  | assertFalseTitle (i : Nat) (line : String)
  | assertPoolLen (i : Nat) (line : String)
  | assertBound (i : Nat)
  | assertIdx (i : Nat) (line : String)
  | assertFinalCount
  | floatFail (line : String)
  deriving DecidableEq, Repr

/-! ### blocks.py: scanBlocks, parseBlock, parseLine, scan, and the
module-level comparison loop. -/

namespace Blocks

/-- Result of blocks.py parseBlock: groups 1 to 7 of reBlock. -/
structure BlockHdr where
  idx : Nat
  rot : Nat
  llx : Dec
  urx : Dec
  lly : Dec
  ury : Dec
  nLines : Nat
  deriving DecidableEq, Repr

/-- Result of blocks.py parseLine.  The source reads groups 1 to 6 of reLine
under these names, although reLine captures index, base, four geometry
tokens, fontSize and text: so llx holds the line index, urx the base, lly and
ury the first two geometry coordinates, base the third, and text the fourth
geometry token as a raw string. -/
structure LineEnt where
  llx : Dec
  urx : Dec
  lly : Dec
  ury : Dec
  base : Dec
  text : String
  line : String
  deriving DecidableEq, Repr

/-- The group terminator marker of blocks.py. -/
def txtBlk2 : String := "----------xxxx------------"

/-- The two states of scanBlocks: outside a group, or collecting the raw
lines of a group opened by a reBlk0 header. -/
inductive Mode where
  | idle
  | collect (header : String) (lines : List String)
  deriving DecidableEq, Repr

structure SBState where
  blocks : List (String × List String)
  mode : Mode
  deriving DecidableEq, Repr

/-- One iteration of the scanBlocks loop on a raw input line. -/
def scanStep (st : SBState) (raw : String) : Except SErr SBState :=
  let line := chomp raw
  if line = "" then .ok st else
  match st.mode with
  | .idle =>
      match matchBlk0 line with
      | some h => .ok ⟨st.blocks, .collect h []⟩
      | none => .ok st
  | .collect h ls =>
      if decide (txtBlk2.data <:+: line.data) || (matchBlk0 line).isSome then
        if ls = [] then .error .assertEmpty
        else .ok ⟨st.blocks ++ [(h, ls)], .idle⟩
      else .ok ⟨st.blocks, .collect h (ls ++ [line])⟩

/-- blocks.py scanBlocks: collect (header, raw lines) groups.  A group still
open at end of input is dropped, as in the source. -/
def scanBlocks (raws : List String) : Except SErr (List (String × List String)) :=
  match runList scanStep ⟨[], .idle⟩ raws with
  | .error e => .error e
  | .ok st => .ok st.blocks

/-- blocks.py parseBlock: reBlock groups 1 to 7. -/
def parseBlock (line : String) : Except SErr BlockHdr :=
  match matchBlockB line with
  | none => .error (.assertNoMatch 0 line)
  | some (idx, rot, g3, g4, g5, g6, nL) =>
      match parseDec g3, parseDec g4, parseDec g5, parseDec g6 with
      | some llx, some urx, some lly, some ury =>
          .ok ⟨idx, rot, llx, urx, lly, ury, nL⟩
      | _, _, _, _ => .error (.floatFail line)

/-- blocks.py parseLine: reads reLine groups 1 to 6 (see LineEnt). -/
def parseLine (line : String) : Except SErr LineEnt :=
  match matchLineB line with
  | none => .error (.assertNoMatch 0 line)
  | some (g1, g2, g3, g4, g5, g6, _, _) =>
      match parseDec g2, parseDec g3, parseDec g4, parseDec g5 with
      | some urx, some lly, some ury, some base =>
          .ok ⟨Dec.ofNat g1, urx, lly, ury, base, g6, line⟩
      | _, _, _, _ => .error (.floatFail line)

/-- blocks.py parseBlockLines: the first collected line is the block header,
the rest are line entries. -/
def parseBlockLines (g : String × List String) :
    Except SErr (BlockHdr × List LineEnt) :=
  match g.2 with
  | [] => .error .assertEmpty
  | l0 :: rest => do
      let b ← parseBlock l0
      let ls ← rest.mapM parseLine
      return (b, ls)

/-- One element of the list built by blocks.py scan:
(header, lines, parseBlockLines(lines)). -/
structure Entry where
  header : String
  rawLines : List String
  blk : BlockHdr
  entries : List LineEnt
  deriving DecidableEq, Repr

/-- blocks.py scan. -/
def scan (raws : List String) : Except SErr (List Entry) := do
  let gs ← scanBlocks raws
  gs.mapM (fun g => do
    let p ← parseBlockLines g
    return ⟨g.1, g.2, p.1, p.2⟩)

/-- TOL = 0.1 of blocks.py. -/
def TOL : Dec := ⟨1, 1⟩

/-- blocks.py equal: absolute difference strictly below TOL. -/
def equal (x1 x2 : Dec) : Bool := Dec.absLt x1 x2 TOL

/-- A failed assert of the blocks.py comparison loop, carrying the block
index, the line index where applicable, and the two compared contexts in
left-right order. -/
inductive CmpErr where
  | headerNe (i : Nat) (h1 h2 : String)
  | lenNe (i : Nat) (n1 n2 : Nat)
  | blkIdx (i : Nat) (b1 b2 : BlockHdr)
  | blkLlx (i : Nat) (b1 b2 : BlockHdr)
  | blkUrx (i : Nat) (b1 b2 : BlockHdr)
  | blkNLines (i : Nat) (b1 b2 : BlockHdr)
  | lnLlx (i j : Nat) (e1 e2 : LineEnt)
  | lnUrx (i j : Nat) (e1 e2 : LineEnt)
  | lnBase (i j : Nat) (e1 e2 : LineEnt)
  | lnText (i j : Nat) (e1 e2 : LineEnt)
  deriving DecidableEq, Repr

/-- The four asserts of the inner line loop, in source order. -/
def cmpLinePair (i j : Nat) (e1 e2 : LineEnt) : Except CmpErr Unit :=
  if equal e1.llx e2.llx = false then .error (.lnLlx i j e1 e2)
  else if equal e1.urx e2.urx = false then .error (.lnUrx i j e1 e2)
  else if equal e1.base e2.base = false then .error (.lnBase i j e1 e2)
  else if e1.text ≠ e2.text then .error (.lnText i j e1 e2)
  else .ok ()

/-- The inner for j loop over aligned line entries. -/
def cmpLines (i : Nat) : Nat → List LineEnt → List LineEnt → Except CmpErr Unit
  | _, [], _ => .ok ()
  | _, _ :: _, [] => .ok ()
  | j, e1 :: t1, e2 :: t2 =>
      match cmpLinePair i j e1 e2 with
      | .error e => .error e
      | .ok _ => cmpLines i (j + 1) t1 t2

/-- The asserts of one iteration of the outer comparison loop, in source
order: header, entry-count, block header fields, then the line loop. -/
def cmpEntry (i : Nat) (x1 x2 : Entry) : Except CmpErr Unit :=
  if x1.header ≠ x2.header then .error (.headerNe i x1.header x2.header)
  else if x1.entries.length ≠ x2.entries.length then
    .error (.lenNe i x1.entries.length x2.entries.length)
  else if x1.blk.idx ≠ x2.blk.idx then .error (.blkIdx i x1.blk x2.blk)
  else if Dec.deq x1.blk.llx x2.blk.llx = false then .error (.blkLlx i x1.blk x2.blk)
  else if Dec.deq x1.blk.urx x2.blk.urx = false then .error (.blkUrx i x1.blk x2.blk)
  else if x1.blk.nLines ≠ x2.blk.nLines then .error (.blkNLines i x1.blk x2.blk)
  else cmpLines i 0 x1.entries x2.entries

/-- The outer for i in range(min(len, len)) loop. -/
def cmpAllAux (i : Nat) : List Entry → List Entry → Except CmpErr Unit
  | [], _ => .ok ()
  | _ :: _, [] => .ok ()
  | x1 :: t1, x2 :: t2 =>
      match cmpEntry i x1 x2 with
      | .error e => .error e
      | .ok _ => cmpAllAux (i + 1) t1 t2

/-- The module-level comparison of blocks.py on two scanned traces: runs the
aligned walk and aborts at the first failed assert. -/
def compareTraces (t1 t2 : List Entry) : Except CmpErr Unit := cmpAllAux 0 t1 t2

/-- All checks of the inner line loop pass. -/
def lineAgree (e1 e2 : LineEnt) : Bool :=
  equal e1.llx e2.llx && equal e1.urx e2.urx && equal e1.base e2.base &&
  decide (e1.text = e2.text)

/-- All checks of one outer iteration pass. -/
def entryAgree (x1 x2 : Entry) : Bool :=
  decide (x1.header = x2.header) &&
  decide (x1.entries.length = x2.entries.length) &&
  decide (x1.blk.idx = x2.blk.idx) && Dec.deq x1.blk.llx x2.blk.llx &&
  Dec.deq x1.blk.urx x2.blk.urx && decide (x1.blk.nLines = x2.blk.nLines) &&
  (x1.entries.zip x2.entries).all (fun p => lineAgree p.1 p.2)

/-- The aligned overlap of the two traces is divergence free. -/
def agreeAll (t1 t2 : List Entry) : Bool :=
  (t1.zip t2).all (fun p => entryAgree p.1 p.2)

/-- Swap the left and right contexts of a comparison error. -/
def swapErr : CmpErr → CmpErr
  | .headerNe i h1 h2 => .headerNe i h2 h1
  | .lenNe i n1 n2 => .lenNe i n2 n1
  | .blkIdx i b1 b2 => .blkIdx i b2 b1
  | .blkLlx i b1 b2 => .blkLlx i b2 b1
  | .blkUrx i b1 b2 => .blkUrx i b2 b1
  | .blkNLines i b1 b2 => .blkNLines i b2 b1
  | .lnLlx i j e1 e2 => .lnLlx i j e2 e1
  | .lnUrx i j e1 e2 => .lnUrx i j e2 e1
  | .lnBase i j e1 e2 => .lnBase i j e2 e1
  | .lnText i j e1 e2 => .lnText i j e2 e1

/-- Swap left and right in a comparison outcome. -/
def swapRes : Except CmpErr Unit → Except CmpErr Unit
  | .ok u => .ok u
  | .error e => .error (swapErr e)

end Blocks

/-! ### block_pools.py: parseBlock, parsePool, parseWord and scan (the
four-state machine with seal checks at the top of the loop). -/

namespace BlockPools

/-- Result of block_pools.py parseBlock: the 1-based input line number, the
reBlock groups, and the raw line appended by scan. -/
structure PBlock where
  i : Nat
  idx : Nat
  rot : Nat
  llx : Dec
  urx : Dec
  lly : Dec
  ury : Dec
  nLines : Int
  nPools : Int
  line : String
  deriving DecidableEq, Repr

/-- Result of block_pools.py parsePool.  The source stores
float(m.group(3)) of a digits-only group, an integer value; it is kept as a
natural number here. -/
structure PPool where
  i : Nat
  idx : Nat
  baseIdx : Int
  nWords : Nat
  line : String
  deriving DecidableEq, Repr

/-- Result of block_pools.py parseWord (groups 1 to 8 of reWord). -/
structure PWord where
  idx : Nat
  base : Dec
  llx : Dec
  urx : Dec
  lly : Dec
  ury : Dec
  fontsize : Dec
  text : String
  deriving DecidableEq, Repr

def parseBlock (i : Nat) (line : String) : Except SErr PBlock :=
  match matchBlockLP line with
  | none => .error (.assertNoMatch i line)
  | some (idx, rot, g3, g4, g5, g6, nL, nP) =>
      match parseDec g3, parseDec g4, parseDec g5, parseDec g6 with
      | some llx, some urx, some lly, some ury =>
          .ok ⟨i, idx, rot, llx, urx, lly, ury, nL, nP, line⟩
      | _, _, _, _ => .error (.floatFail line)

/-- parsePool, including its assert that the declared word count is
positive. -/
def parsePool (i : Nat) (line : String) : Except SErr PPool :=
  match matchPool line with
  | none => .error (.assertNoMatch i line)
  | some (idx, b, n) =>
      if n = 0 then .error (.assertPoolLen i line)
      else .ok ⟨i, idx, b, n, line⟩

def parseWord (i : Nat) (line : String) : Except SErr PWord :=
  match matchWordSer line with
  | none => .error (.assertNoMatch i line)
  | some (idx, gb, g3, g4, g5, g6, gf, text) =>
      match parseDec gb, parseDec g3, parseDec g4, parseDec g5,
          parseDec g6, parseDec gf with
      | some base, some llx, some urx, some lly, some ury, some fontsize =>
          .ok ⟨idx, base, llx, urx, lly, ury, fontsize, text⟩
      | _, _, _, _, _, _ => .error (.floatFail line)

/-- The states 0 to 3 of block_pools.py scan, carrying the open nodes.  The
Python locals header, block, pools, pool, words are only meaningful in the
corresponding states; the reset values after a seal are represented by the
absence of the fields. -/
inductive Mode where
  | idle
  | expectBlock (header : String)
  | inBlock (header : String) (blk : PBlock) (pools : List (PPool × List PWord))
  | inPool (header : String) (blk : PBlock) (pools : List (PPool × List PWord))
      (pool : PPool) (words : List PWord)
  deriving DecidableEq, Repr

/-- One sealed block of block_pools.py scan: (header, block, pools). -/
abbrev Block := String × PBlock × List (PPool × List PWord)

structure ScState where
  i : Nat
  blocks : List Block
  mode : Mode
  deriving DecidableEq, Repr

/-- The two seal checks at the top of the loop body: a full pool is appended
to the open block, then a full block is appended to the result. -/
def sealStep (blocks : List Block) (m : Mode) : List Block × Mode :=
  let m1 : Mode :=
    match m with
    | .inPool h b ps p ws =>
        if ws.length = p.nWords then .inBlock h b (ps ++ [(p, ws)])
        else .inPool h b ps p ws
    | m0 => m0
  match m1 with
  | .inBlock h b ps =>
      if (ps.length : Int) = b.nPools then (blocks ++ [(h, b, ps)], .idle)
      else (blocks, m1)
  | m2 => (blocks, m2)

/-- The per-state dispatch of block_pools.py scan. -/
def dispatch (i : Nat) (line : String) : Mode → Except SErr Mode
  | .idle =>
      match matchBlk0 line with
      | some h => .ok (.expectBlock h)
      | none => .ok .idle
  | .expectBlock h => do
      let b ← parseBlock i line
      return .inBlock h b []
  | .inBlock h b ps => do
      let p ← parsePool i line
      return .inPool h b ps p []
  | .inPool h b ps p ws => do
      let w ← parseWord i line
      return .inPool h b ps p (ws ++ [w])

/-- The trailing asserts of the loop body (len(pools) at most nPools and
len(words) at most nWords), checked whenever the state is not 0.  In states
1 and 2 the word counters hold their reset values 0 and the checks are
vacuous. -/
def boundsOk : Mode → Bool
  | .idle => true
  | .expectBlock _ => true
  | .inBlock _ b ps => decide ((ps.length : Int) ≤ b.nPools)
  | .inPool _ b ps p ws =>
      decide ((ps.length : Int) ≤ b.nPools) && decide (ws.length ≤ p.nWords)

/-- One iteration of the block_pools.py scan loop: line number, chomp and
strip, blank skip, seal checks, dispatch, trailing asserts. -/
def step (st : ScState) (raw : String) : Except SErr ScState :=
  let i := st.i + 1
  let line := pyStrip (chomp raw)
  if line = "" then .ok ⟨i, st.blocks, st.mode⟩ else
  let p := sealStep st.blocks st.mode
  match dispatch i line p.2 with
  | .error e => .error e
  | .ok m2 =>
      if boundsOk m2 then .ok ⟨i, p.1, m2⟩ else .error (.assertBound i)

/-- Run the scan loop over all raw lines, returning the final loop state. -/
def run (raws : List String) : Except SErr ScState :=
  runList step ⟨0, [], .idle⟩ raws

/-- block_pools.py scan: the sealed blocks.  A node still open at end of
input is dropped, as in the source. -/
def scan (raws : List String) : Except SErr (List Block) :=
  match run raws with
  | .error e => .error e
  | .ok st => .ok st.blocks

end BlockPools

/-! ### block_lines.py: parseBlock, parseLine and scan (the three-state
machine with the seal check at the top of the loop). -/

namespace BlockLines

/-- Result of block_lines.py parseBlock (reBlock groups 1 to 8). -/
structure LBlock where
  idx : Nat
  rot : Nat
  llx : Dec
  urx : Dec
  lly : Dec
  ury : Dec
  nLines : Int
  nPools : Int
  deriving DecidableEq, Repr

/-- Result of block_lines.py parseLine.  The source reads groups 1 to 7 of
reLine under these names, although reLine captures index, base, four
geometry tokens, fontsize and text: so base holds the line index digits,
llx the base token, urx to ury the first three geometry coordinates,
fontsize the fourth geometry coordinate, and text the fontsize token as a
raw string. -/
structure LLine where
  base : Dec
  llx : Dec
  urx : Dec
  lly : Dec
  ury : Dec
  fontsize : Dec
  text : String
  line : String
  deriving DecidableEq, Repr

def parseBlock (i : Nat) (line : String) : Except SErr LBlock :=
  match matchBlockLP line with
  | none => .error (.assertNoMatch i line)
  | some (idx, rot, g3, g4, g5, g6, nL, nP) =>
      match parseDec g3, parseDec g4, parseDec g5, parseDec g6 with
      | some llx, some urx, some lly, some ury =>
          .ok ⟨idx, rot, llx, urx, lly, ury, nL, nP⟩
      | _, _, _, _ => .error (.floatFail line)

def parseLine (i : Nat) (line : String) : Except SErr LLine :=
  match matchLineSer line with
  | none => .error (.assertNoMatch i line)
  | some (g1, g2, g3, g4, g5, g6, g7, _) =>
      match parseDec g2, parseDec g3, parseDec g4, parseDec g5,
          parseDec g6 with
      | some llx, some urx, some lly, some ury, some fontsize =>
          .ok ⟨Dec.ofNat g1, llx, urx, lly, ury, fontsize, g7, line⟩
      | _, _, _, _, _ => .error (.floatFail line)

/-- The states 0 to 2 of block_lines.py scan. -/
inductive Mode where
  | idle
  | expectBlock (header : String)
  | inBlock (header : String) (blk : LBlock) (lines : List LLine)
  deriving DecidableEq, Repr

/-- One sealed block of block_lines.py scan: (header, block, lines). -/
abbrev Block := String × LBlock × List LLine

structure ScState where
  i : Nat
  blocks : List Block
  mode : Mode
  deriving DecidableEq, Repr

/-- The seal check at the top of the loop body. -/
def sealStep (blocks : List Block) (m : Mode) : List Block × Mode :=
  match m with
  | .inBlock h b ls =>
      if (ls.length : Int) = b.nLines then (blocks ++ [(h, b, ls)], .idle)
      else (blocks, m)
  | m0 => (blocks, m0)

def dispatch (i : Nat) (line : String) : Mode → Except SErr Mode
  | .idle =>
      match matchBlk0 line with
      | some h => .ok (.expectBlock h)
      | none => .ok .idle
  | .expectBlock h => do
      let b ← parseBlock i line
      return .inBlock h b []
  | .inBlock h b ls => do
      let l ← parseLine i line
      return .inBlock h b (ls ++ [l])

/-- The trailing assert len(lines) at most nLines, checked when the state is
not 0. -/
def boundsOk : Mode → Bool
  | .idle => true
  | .expectBlock _ => true
  | .inBlock _ b ls => decide ((ls.length : Int) ≤ b.nLines)

def step (st : ScState) (raw : String) : Except SErr ScState :=
  let i := st.i + 1
  let line := pyStrip (chomp raw)
  if line = "" then .ok ⟨i, st.blocks, st.mode⟩ else
  let p := sealStep st.blocks st.mode
  match dispatch i line p.2 with
  | .error e => .error e
  | .ok m2 =>
      if boundsOk m2 then .ok ⟨i, p.1, m2⟩ else .error (.assertBound i)

def run (raws : List String) : Except SErr ScState :=
  runList step ⟨0, [], .idle⟩ raws

/-- block_lines.py scan. -/
def scan (raws : List String) : Except SErr (List Block) :=
  match run raws with
  | .error e => .error e
  | .ok st => .ok st.blocks

end BlockLines

/-! ### blocklist.py: the reLine pattern with serial=, parseBlock, parseLine
and scan (with the optional wantedTitle filter). -/

/-- Head of the blocklist.py reLine pattern: serial= with no whitespace
around the equals sign, up to and including base= (no ws star after it in
this pattern). -/
def lineBLHead (cs : List Char) : Option (Nat × List Char) :=
  (lit "line".data cs).bind fun r =>
  (ws1 r).bind fun r2 =>
  (digits1 r2).bind fun pidx =>
  (lit [':'] (ws0 pidx.2)).bind fun r3 =>
  (lit "serial=".data (ws0 r3)).bind fun r4 =>
  (digits1 r4).bind fun pser =>
  (ws1 pser.2).bind fun r5 =>
  (lit "base=".data r5).map fun r6 =>
  (pidx.1, r6)

/-- Anchored model of the blocklist.py reLine pattern. -/
def matchLineBLcore (cs : List Char) :
    Option (Nat × String × String × String × String × String × String × String) :=
  (lineBLHead cs).bind fun ph =>
  (geomFsQuoted fsPieceLower ph.2).map fun pt => (ph.1, pt)

/-- re.search with the reLine pattern of blocklist.py. -/
def matchLineBL (s : String) :
    Option (Nat × String × String × String × String × String × String × String) :=
  searchPos matchLineBLcore s.data

namespace BlockList

/-- Result of blocklist.py parseBlock, with the raw line appended by scan. -/
structure BLBlock where
  idx : Nat
  rot : Nat
  llx : Dec
  urx : Dec
  lly : Dec
  ury : Dec
  nLines : Nat
  line : String
  deriving DecidableEq, Repr

/-- Result of blocklist.py parseLine (groups 1 to 8 of its reLine, read in
order), with the raw line appended by scan. -/
structure BLLine where
  idx : Nat
  base : Dec
  llx : Dec
  urx : Dec
  lly : Dec
  ury : Dec
  fontsize : Dec
  text : String
  line : String
  deriving DecidableEq, Repr

def parseBlock (i : Nat) (line : String) : Except SErr BLBlock :=
  match matchBlockB line with
  | none => .error (.assertNoMatch i line)
  | some (idx, rot, g3, g4, g5, g6, nL) =>
      match parseDec g3, parseDec g4, parseDec g5, parseDec g6 with
      | some llx, some urx, some lly, some ury =>
          .ok ⟨idx, rot, llx, urx, lly, ury, nL, line⟩
      | _, _, _, _ => .error (.floatFail line)

def parseLine (i : Nat) (line : String) : Except SErr BLLine :=
  match matchLineBL line with
  | none => .error (.assertNoMatch i line)
  | some (g1, g2, g3, g4, g5, g6, g7, g8) =>
      match parseDec g2, parseDec g3, parseDec g4, parseDec g5,
          parseDec g6, parseDec g7 with
      | some base, some llx, some urx, some lly, some ury, some fontsize =>
          .ok ⟨g1, base, llx, urx, lly, ury, fontsize, g8, line⟩
      | _, _, _, _, _, _ => .error (.floatFail line)

/-- One group of blocklist.py scan: (title, titleLine, blocks). -/
abbrev Group := String × String × List (BLBlock × List BLLine)

/-- The states 0 to 2 of blocklist.py scan. -/
inductive Mode where
  | idle
  | expectBlock
  | inBlock (blk : BLBlock) (lines : List BLLine)
  deriving DecidableEq, Repr

/-- The loop state: the Python locals that persist across iterations.  The
title fields are meaningful only after the first group header; they start
out empty. -/
structure ScState where
  i : Nat
  blocksList : List Group
  title : String
  titleLine : String
  nBlocks : Nat
  blocks : List (BLBlock × List BLLine)
  mode : Mode
  deriving DecidableEq, Repr

/-- One iteration of the blocklist.py scan loop.  In state 0 a matching
group header is filtered against wantedTitle: on a mismatch the source hits
assert False (the continue after it is unreachable).  In state 1 the block
index must be below nBlocks and equal to the number of blocks collected so
far.  In state 2 the line index must be below the declared line count; a
full block is appended, and a full group is appended and returns to
state 0. -/
def step (wanted : Option String) (st : ScState) (raw : String) :
    Except SErr ScState :=
  let i := st.i + 1
  let line := pyStrip (chomp raw)
  if line = "" then
    .ok ⟨i, st.blocksList, st.title, st.titleLine, st.nBlocks, st.blocks, st.mode⟩
  else
  match st.mode with
  | .idle =>
      match matchBlkList line with
      | some (title, n) =>
          match wanted with
          | some w =>
              if decide (w ≠ "") && decide (title ≠ w) then
                .error (.assertFalseTitle i line)
              else .ok ⟨i, st.blocksList, title, line, n, [], .expectBlock⟩
          | none => .ok ⟨i, st.blocksList, title, line, n, [], .expectBlock⟩
      | none =>
          .ok ⟨i, st.blocksList, st.title, st.titleLine, st.nBlocks, st.blocks,
            st.mode⟩
  | .expectBlock =>
      match parseBlock i line with
      | .error e => .error e
      | .ok b =>
          if b.idx < st.nBlocks then
            if b.idx = st.blocks.length then
              .ok ⟨i, st.blocksList, st.title, st.titleLine, st.nBlocks,
                st.blocks, .inBlock b []⟩
            else .error (.assertIdx i line)
          else .error (.assertIdx i line)
  | .inBlock b ls =>
      match parseLine i line with
      | .error e => .error e
      | .ok l =>
          let ls2 := ls ++ [l]
          if l.idx < b.nLines then
            if ls2.length = b.nLines then
              let blocks2 := st.blocks ++ [(b, ls2)]
              if blocks2.length = st.nBlocks then
                .ok ⟨i, st.blocksList ++ [(st.title, st.titleLine, blocks2)],
                  st.title, st.titleLine, st.nBlocks, blocks2, .idle⟩
              else
                .ok ⟨i, st.blocksList, st.title, st.titleLine, st.nBlocks,
                  blocks2, .expectBlock⟩
            else
              .ok ⟨i, st.blocksList, st.title, st.titleLine, st.nBlocks,
                st.blocks, .inBlock b ls2⟩
          else .error (.assertIdx i line)

def run (wanted : Option String) (raws : List String) : Except SErr ScState :=
  runList (step wanted) ⟨0, [], "", "", 0, [], .idle⟩ raws

/-- blocklist.py scan, including the final assert that the last declared
block count was met. -/
def scan (wanted : Option String) (raws : List String) :
    Except SErr (List Group) :=
  match run wanted raws with
  | .error e => .error e
  | .ok st =>
      if st.nBlocks = st.blocks.length then .ok st.blocksList
      else .error .assertFinalCount

end BlockList

/-! ### pools.py: TOL, equal, exclude and compareInstance. -/

namespace Pools

/-- One word tuple of pools.py scan:
(idx, base, llx, urx, lly, ury, fontsize, text, line). -/
structure PWord where
  idx : Nat
  base : Dec
  llx : Dec
  urx : Dec
  lly : Dec
  ury : Dec
  fontsize : Dec
  text : String
  line : String
  deriving DecidableEq, Repr

/-- The bases list of one rot group: (baseIdx, words) pairs. -/
abbrev Bases := List (Nat × List PWord)

/-- The rots list of one instance: (rot, bases) pairs. -/
abbrev Rots := List (Nat × Bases)

/-- One instance of pools.py scan: (line index, header, rots). -/
abbrev Inst := Nat × String × Rots

/-- TOL = 0.1 of pools.py. -/
def TOL : Dec := ⟨1, 1⟩

/-- pools.py equal (defined in the source but not used by
compareInstance, whose asserts compare exactly). -/
def equal (x1 x2 : Dec) : Bool := Dec.absLt x1 x2 TOL

/-- The configured noise marker characters of pools.py. -/
def exclusions : List String := ["\x13", "\x19"]

/-- pools.py exclude: the text contains one of the marker characters. -/
def exclude (text : String) : Bool :=
  exclusions.any (fun e => decide (e.data <:+: text.data))

/-- A failed assert or index error of pools.py compareInstance, with the two
compared contexts in left-right order. -/
inductive CIErr where
  | emptyRots
  | basesLen (n1 n2 : Nat)
  | baseIdxNe (k : Nat) (b1 b2 : Nat)
  | wordsLen (k : Nat) (n1 n2 : Nat)
  | wBase (k j : Nat) (w1 w2 : PWord)
  | wLlx (k j : Nat) (w1 w2 : PWord)
  | wUrx (k j : Nat) (w1 w2 : PWord)
  | wFontsize (k j : Nat) (w1 w2 : PWord)
  | wText (k j : Nat) (w1 w2 : PWord)
  deriving DecidableEq, Repr

/-- The msg string printed by compareInstance when a marker character is
present on either side. -/
def ciMsg (j : Nat) (l1 l2 : String) : String :=
  "j=" ++ toString j ++ "\n\tw1=>>" ++ l1 ++ "<<\n\tw2=>>" ++ l2 ++ "<<"

/-- The inner word loop of compareInstance: exact equality asserts on base,
llx, urx and fontsize; the msg print when a marker is present on either
side (collected as the returned log); and the text equality assert, which
is skipped when marker presence differs between the two sides. -/
def cmpWords (k : Nat) : Nat → List PWord → List PWord → Except CIErr (List String)
  | _, [], _ => .ok []
  | _, _ :: _, [] => .ok []
  | j, w1 :: t1, w2 :: t2 =>
      if Dec.deq w1.base w2.base = false then .error (.wBase k j w1 w2)
      else if Dec.deq w1.llx w2.llx = false then .error (.wLlx k j w1 w2)
      else if Dec.deq w1.urx w2.urx = false then .error (.wUrx k j w1 w2)
      else if Dec.deq w1.fontsize w2.fontsize = false then .error (.wFontsize k j w1 w2)
      else
        let log1 : List String :=
          if exclude w1.text || exclude w2.text then [ciMsg j w1.line w2.line]
          else []
        if exclude w1.text = exclude w2.text then
          if w1.text ≠ w2.text then .error (.wText k j w1 w2)
          else (cmpWords k (j + 1) t1 t2).map (fun rest => log1 ++ rest)
        else (cmpWords k (j + 1) t1 t2).map (fun rest => log1 ++ rest)

/-- The bases loop of compareInstance. -/
def cmpBases (k : Nat) : Bases → Bases → Except CIErr (List String)
  | [], _ => .ok []
  | _ :: _, [] => .ok []
  | p1 :: t1, p2 :: t2 =>
      if p1.1 ≠ p2.1 then .error (.baseIdxNe k p1.1 p2.1)
      else if p1.2.length ≠ p2.2.length then
        .error (.wordsLen k p1.2.length p2.2.length)
      else do
        let lg ← cmpWords k 0 p1.2 p2.2
        let rest ← cmpBases (k + 1) t1 t2
        return lg ++ rest

/-- pools.py compareInstance: unpack rots[0] of each instance (an index
error on an empty rots list), assert the bases lists have equal length, and
run the aligned loops.  Returns the log of msg prints on success. -/
def compareInstance (inst1 inst2 : Inst) : Except CIErr (List String) :=
  match inst1.2.2, inst2.2.2 with
  | [], _ => .error .emptyRots
  | _ :: _, [] => .error .emptyRots
  | (_, bases1) :: _, (_, bases2) :: _ =>
      if bases1.length ≠ bases2.length then
        .error (.basesLen bases1.length bases2.length)
      else cmpBases 0 bases1 bases2

end Pools

/-! ### words.py: the match list, the bad set, the content-key inversion,
the edges map and the cycle walk. -/

namespace Words

/-- One match tuple of words.py scan: (line number, idx, text, base, line). -/
structure WMatch where
  n : Nat
  idx : Nat
  text : String
  base : Dec
  line : String
  deriving DecidableEq, Repr

/-- List access at an index below the length (the source indexes matches
inside range(n)). -/
def wget (l : List WMatch) (i : Nat) : WMatch := l.getD i ⟨0, 0, "", ⟨0, 0⟩, ""⟩

/-- Two-decimal rounding, modelling the percent-5.2f formatting of the
part strings (exact on the two-decimal trace values): the floor of
100 x + 1/2, computed over the integers. -/
def round2 (d : Dec) : Int :=
  Int.fdiv (d.num * 200 + (10 : Int) ^ d.exp) (2 * (10 : Int) ^ d.exp)

/-- The content key of one entry: the source formats (base, text) as the
part string; two part strings are equal exactly when the rounded bases and
the texts are equal. -/
def wkey (w : WMatch) : Int × String := (round2 w.base, w.text)

/-- n = min(len(matches1), len(matches2)). -/
def nmin (m1 m2 : List WMatch) : Nat := min m1.length m2.length

/-- The bad test of the comparison loop: index, text or base differ. -/
def wbad (m1 m2 : List WMatch) (i : Nat) : Bool :=
  decide ((wget m1 i).idx ≠ (wget m2 i).idx) ||
  decide ((wget m1 i).text ≠ (wget m2 i).text) ||
  !(Dec.deq (wget m1 i).base (wget m2 i).base)

/-- badIds: the mismatched indices below n, in order. -/
def badIds (m1 m2 : List WMatch) : List Nat :=
  (List.range (nmin m1 m2)).filter (fun i => wbad m1 m2 i)

/-- pam2: the inversion of the map2 dict.  map2 is built by ascending index
over range(n), so a duplicated key keeps the last index: the lookup returns
the largest index below n holding the key. -/
def pam2 (m1 m2 : List WMatch) (k : Int × String) : Option Nat :=
  ((List.range (nmin m1 m2)).filter
    (fun j => decide (wkey (wget m2 j) = k))).getLast?

/-- edges: each bad left index maps to the right index holding its content
key (a KeyError in the source when the key is absent, hence the Option). -/
def edges (m1 m2 : List WMatch) (i : Nat) : Option Nat :=
  pam2 m1 m2 (wkey (wget m1 i))

/-- The total function stepped by the cycle walk (the walk only evaluates it
on indices where edges is defined). -/
def efun (m1 m2 : List WMatch) (i : Nat) : Nat := (edges m1 m2 i).getD i

end Words

/-! ### text.py: scan. -/

namespace TextScan

/-- One iteration of the text.py scan loop: chomp the raw line, count it,
and collect (nLines, text, line) when the doShowText pattern matches the
chomped line. -/
def scanStep (st : Nat × List (Nat × String × String)) (raw : String) :
    Nat × List (Nat × String × String) :=
  let line := chomp raw
  let n := st.1 + 1
  match matchText line with
  | some t => (n, st.2 ++ [(n, t, line)])
  | none => (n, st.2)

/-- text.py scan: returns (nLines, matches). -/
def scan (raws : List String) : Nat × List (Nat × String × String) :=
  raws.foldl scanStep (0, [])

end TextScan

/-! ### Concrete inputs used by the claim theorems -/

/-- Two raw trace files in the blocks.py format, identical except for the
third geometry coordinate of the single line entry (670.63 vs 671.63). -/
def c1f1 : List String := [
  "Z textBlock: lines built blk=0--------------------------\n",
  "block 0: rot=0 \x7b54.00 91.85 697.92 755.88\x7d col=0 nCols=0 lines=1\n",
  "line 0: base=120.24 \x7b42.52 422.51 670.63 694.63\x7d fontSize=24.00 \"How\"\n",
  "----------xxxx------------\n"]

def c1f2 : List String := [
  "Z textBlock: lines built blk=0--------------------------\n",
  "block 0: rot=0 \x7b54.00 91.85 697.92 755.88\x7d col=0 nCols=0 lines=1\n",
  "line 0: base=120.24 \x7b42.52 422.51 671.63 694.63\x7d fontSize=24.00 \"How\"\n",
  "----------xxxx------------\n"]

def c1line1 : String :=
  "line 0: base=120.24 \x7b42.52 422.51 670.63 694.63\x7d fontSize=24.00 \"How\""

def c1line2 : String :=
  "line 0: base=120.24 \x7b42.52 422.51 671.63 694.63\x7d fontSize=24.00 \"How\""

/-- The parsed line entry of c1f1 (see LineEnt for the field naming). -/
def c1e1 : Blocks.LineEnt :=
  ⟨⟨0, 0⟩, ⟨12024, 2⟩, ⟨4252, 2⟩, ⟨42251, 2⟩, ⟨67063, 2⟩, "694.63", c1line1⟩

/-- The parsed line entry of c1f2. -/
def c1e2 : Blocks.LineEnt :=
  ⟨⟨0, 0⟩, ⟨12024, 2⟩, ⟨4252, 2⟩, ⟨42251, 2⟩, ⟨67163, 2⟩, "694.63", c1line2⟩

/-- Word entry of the spec scenario: base=99.96. -/
def c2w1 : Pools.PWord :=
  ⟨0, ⟨9996, 2⟩, ⟨14354, 2⟩, ⟨17769, 2⟩, ⟨74193, 2⟩, ⟨75627, 2⟩,
    ⟨1435, 2⟩, "High",
    "word 0: serial=0 base=99.96 \x7b143.54 177.69 741.93 756.27\x7d fontsize=14.35 \"High\""⟩

/-- The same word entry with base=100.00 (difference 0.04). -/
def c2w2 : Pools.PWord :=
  ⟨0, ⟨10000, 2⟩, ⟨14354, 2⟩, ⟨17769, 2⟩, ⟨74193, 2⟩, ⟨75627, 2⟩,
    ⟨1435, 2⟩, "High",
    "word 0: serial=0 base=100.00 \x7b143.54 177.69 741.93 756.27\x7d fontsize=14.35 \"High\""⟩

/-- Line entries for the tolerance boundary in the blocks.py line loop;
their base slots differ by 0.04, and by exactly 0.1 for the third. -/
def c2e1 : Blocks.LineEnt :=
  ⟨⟨0, 0⟩, ⟨1, 0⟩, ⟨2, 0⟩, ⟨3, 0⟩, ⟨9996, 2⟩, "t", "L1"⟩

def c2e2 : Blocks.LineEnt :=
  ⟨⟨0, 0⟩, ⟨1, 0⟩, ⟨2, 0⟩, ⟨3, 0⟩, ⟨10000, 2⟩, "t", "L2"⟩

def c2e3 : Blocks.LineEnt :=
  ⟨⟨0, 0⟩, ⟨1, 0⟩, ⟨2, 0⟩, ⟨3, 0⟩, ⟨10006, 2⟩, "t", "L3"⟩

/-- Block headers and entries for the C3 counterexample. -/
def c3bh1 : Blocks.BlockHdr := ⟨0, 0, ⟨1, 0⟩, ⟨2, 0⟩, ⟨3, 0⟩, ⟨4, 0⟩, 1⟩

def c3bh2 : Blocks.BlockHdr := ⟨0, 0, ⟨1, 0⟩, ⟨2, 0⟩, ⟨3, 0⟩, ⟨4, 0⟩, 2⟩

def c3l1 : Blocks.LineEnt :=
  ⟨⟨0, 0⟩, ⟨1, 0⟩, ⟨2, 0⟩, ⟨3, 0⟩, ⟨4, 0⟩, "t", "L"⟩

def c3l2 : Blocks.LineEnt :=
  ⟨⟨1, 0⟩, ⟨1, 0⟩, ⟨2, 0⟩, ⟨3, 0⟩, ⟨4, 0⟩, "t", "L2"⟩

/-- A line entry diverging from c3l1 in the text slot. -/
def c3l1d : Blocks.LineEnt :=
  ⟨⟨0, 0⟩, ⟨1, 0⟩, ⟨2, 0⟩, ⟨3, 0⟩, ⟨4, 0⟩, "u", "L3"⟩

def c3xA : Blocks.Entry := ⟨"h", [], c3bh2, [c3l1, c3l2]⟩

def c3xB : Blocks.Entry := ⟨"h", [], c3bh1, [c3l1]⟩

def c3xC : Blocks.Entry := ⟨"h", [], c3bh1, [c3l1]⟩

def c3xD : Blocks.Entry := ⟨"h", [], c3bh1, [c3l1d]⟩

/-- A raw trace file in the block_pools.py format: one block with one pool
of one word, followed by the terminator. -/
def c4raws : List String := [
  "A textBlock: before blk=0--------------------------\n",
  " block 0: rot=0 \x7b1.00 2.00 3.00 4.00\x7d col=0 nCols=0 lines=0 pools=1\n",
  "  pool 0: baseIdx=24 len=1\n",
  "   word 0: serial=0 base=5.00 \x7b1.00 2.00 3.00 4.00\x7d fontsize=6.00 \"High\"\n",
  "B ----------xxxx------------\n"]

def c4blkline : String :=
  "block 0: rot=0 \x7b1.00 2.00 3.00 4.00\x7d col=0 nCols=0 lines=0 pools=1"

def c4poolline : String := "pool 0: baseIdx=24 len=1"

/-- The single sealed block produced by scanning c4raws. -/
def c4block : BlockPools.Block :=
  ("before", ⟨2, 0, 0, ⟨100, 2⟩, ⟨200, 2⟩, ⟨300, 2⟩, ⟨400, 2⟩, 0, 1, c4blkline⟩,
    [(⟨3, 0, 24, 1, c4poolline⟩,
      [⟨0, ⟨500, 2⟩, ⟨100, 2⟩, ⟨200, 2⟩, ⟨300, 2⟩, ⟨400, 2⟩, ⟨600, 2⟩, "High"⟩])])

/-- The final loop state after scanning c4raws. -/
def c4st : BlockPools.ScState := ⟨5, [c4block], .idle⟩

/-- The C5 scenario in the block_lines.py format: a group header, a block
header declaring lines=1, and a second block header arriving before any
line. -/
def c5raws : List String := [
  "X textBlock: lines built blk=0--------------------------\n",
  "block 0: rot=0 \x7b54.00 91.85 697.92 755.88\x7d col=0 nCols=0 lines=1 pools=1\n",
  "block 1: rot=0 \x7b54.00 91.85 697.92 755.88\x7d col=0 nCols=0 lines=1 pools=1\n"]

/-- The intruding sibling header of the C5 scenario, as stripped by scan. -/
def c5line3 : String :=
  "block 1: rot=0 \x7b54.00 91.85 697.92 755.88\x7d col=0 nCols=0 lines=1 pools=1"

/-- The C6 failing input: a group labeled unsorted. -/
def c6raws : List String := ["showBlockList: unsorted : 21\n"]

/-- Word entries for C7: texts differ, and the noise marker 0x13 appears in
exactly one of them. -/
def c7w1 : Pools.PWord :=
  ⟨0, ⟨1, 0⟩, ⟨2, 0⟩, ⟨3, 0⟩, ⟨4, 0⟩, ⟨5, 0⟩, ⟨6, 0⟩, "A\x13", "w1line"⟩

def c7w2 : Pools.PWord :=
  ⟨0, ⟨1, 0⟩, ⟨2, 0⟩, ⟨3, 0⟩, ⟨4, 0⟩, ⟨5, 0⟩, ⟨6, 0⟩, "B", "w2line"⟩

/-- Match lists for C9: the same three entries in permuted order. -/
def c9m1 : List Words.WMatch :=
  [⟨1, 0, "a", ⟨1, 0⟩, "la"⟩, ⟨2, 1, "b", ⟨2, 0⟩, "lb"⟩,
    ⟨3, 2, "c", ⟨3, 0⟩, "lc"⟩]

def c9m2 : List Words.WMatch :=
  [⟨1, 1, "b", ⟨2, 0⟩, "lb"⟩, ⟨2, 2, "c", ⟨3, 0⟩, "lc"⟩,
    ⟨3, 0, "a", ⟨1, 0⟩, "la"⟩]

/-- A doShowText line with no trailing newline. -/
def c10w : String := "@@doShowText: \"PERS\""

end TraceCheck





/-! ### Specification predicates for the C4 invariant and a concrete prefix
state for its witness. -/

namespace TraceCheck

namespace BlockPools

def poolsInv (ps : List (PPool × List PWord)) : Prop :=
  ∀ pw ∈ ps, pw.2.length = pw.1.nWords

def blocksInv (blocks : List Block) : Prop :=
  ∀ b ∈ blocks, (b.2.2.length : Int) = b.2.1.nPools ∧ poolsInv b.2.2

def modeInv : Mode → Prop
  | .idle => True
  | .expectBlock _ => True
  | .inBlock _ _ ps => poolsInv ps
  | .inPool _ _ ps _ _ => poolsInv ps

def stInv (st : ScState) : Prop := blocksInv st.blocks ∧ modeInv st.mode

def boundsProp : Mode → Prop
  | .idle => True
  | .expectBlock _ => True
  | .inBlock _ b ps => (ps.length : Int) ≤ b.nPools
  | .inPool _ b ps p ws => (ps.length : Int) ≤ b.nPools ∧ ws.length ≤ p.nWords

end BlockPools

/-- The loop state after the first four lines of c4raws: the word pool is
still open and holds its single word. -/
def c4st4 : BlockPools.ScState :=
  ⟨4, [],
    .inPool "before"
      ⟨2, 0, 0, ⟨100, 2⟩, ⟨200, 2⟩, ⟨300, 2⟩, ⟨400, 2⟩, 0, 1, c4blkline⟩
      []
      ⟨3, 0, 24, 1, c4poolline⟩
      [⟨0, ⟨500, 2⟩, ⟨100, 2⟩, ⟨200, 2⟩, ⟨300, 2⟩, ⟨400, 2⟩, ⟨600, 2⟩, "High"⟩]⟩

end TraceCheck

namespace TraceCheck

theorem intNatAbs_sub_comm (a b : ℤ) : (a - b).natAbs = (b - a).natAbs := by
  rw [← Int.natAbs_neg (a - b), neg_sub]

theorem dec_deq_comm (a b : Dec) : Dec.deq a b = Dec.deq b a := by
  unfold Dec.deq
  exact decide_eq_decide.mpr ⟨fun h => h.symm, fun h => h.symm⟩

theorem dec_absLt_comm (a b t : Dec) : Dec.absLt a b t = Dec.absLt b a t := by
  unfold Dec.absLt
  apply decide_eq_decide.mpr
  rw [intNatAbs_sub_comm (a.num * 10 ^ b.exp) (b.num * 10 ^ a.exp),
    Nat.add_comm a.exp b.exp]

theorem blocks_equal_comm (x1 x2 : Dec) :
    Blocks.equal x1 x2 = Blocks.equal x2 x1 := by
  unfold Blocks.equal
  exact dec_absLt_comm x1 x2 Blocks.TOL

theorem cmpLinePair_swap (i j : Nat) (e1 e2 : Blocks.LineEnt) :
    Blocks.cmpLinePair i j e2 e1 =
      Blocks.swapRes (Blocks.cmpLinePair i j e1 e2) := by
  cases h1 : Blocks.equal e1.llx e2.llx <;>
  cases h2 : Blocks.equal e1.urx e2.urx <;>
  cases h3 : Blocks.equal e1.base e2.base <;>
  rcases eq_or_ne e1.text e2.text with ht | ht <;>
    first
      | simp [Blocks.cmpLinePair, Blocks.swapRes, Blocks.swapErr,
          blocks_equal_comm e2.llx e1.llx, blocks_equal_comm e2.urx e1.urx,
          blocks_equal_comm e2.base e1.base, h1, h2, h3, ht, Ne.symm ht]
      | simp [Blocks.cmpLinePair, Blocks.swapRes, Blocks.swapErr,
          blocks_equal_comm e2.llx e1.llx, blocks_equal_comm e2.urx e1.urx,
          blocks_equal_comm e2.base e1.base, h1, h2, h3, ht]

end TraceCheck

namespace TraceCheck

theorem cmpLines_swap (i : Nat) :
    ∀ (l1 l2 : List Blocks.LineEnt) (j : Nat),
      Blocks.cmpLines i j l2 l1 = Blocks.swapRes (Blocks.cmpLines i j l1 l2) := by
  intro l1
  induction l1 with
  | nil => intro l2 j; cases l2 <;> simp [Blocks.cmpLines, Blocks.swapRes]
  | cons e1 t1 ih =>
      intro l2 j
      cases l2 with
      | nil => simp [Blocks.cmpLines, Blocks.swapRes]
      | cons e2 t2 =>
          rw [show Blocks.cmpLines i j (e1 :: t1) (e2 :: t2) =
            (match Blocks.cmpLinePair i j e1 e2 with
             | .error e => .error e
             | .ok _ => Blocks.cmpLines i (j + 1) t1 t2) from rfl]
          rw [show Blocks.cmpLines i j (e2 :: t2) (e1 :: t1) =
            (match Blocks.cmpLinePair i j e2 e1 with
             | .error e => .error e
             | .ok _ => Blocks.cmpLines i (j + 1) t2 t1) from rfl]
          rw [cmpLinePair_swap i j e1 e2]
          cases hc : Blocks.cmpLinePair i j e1 e2 with
          | error e => simp [Blocks.swapRes]
          | ok u =>
              cases u
              simpa [Blocks.swapRes] using ih t2 (j + 1)

theorem cmpEntry_swap (i : Nat) (x1 x2 : Blocks.Entry) :
    Blocks.cmpEntry i x2 x1 = Blocks.swapRes (Blocks.cmpEntry i x1 x2) := by
  unfold Blocks.cmpEntry
  rcases eq_or_ne x1.header x2.header with hh | hh <;>
  rcases eq_or_ne x1.entries.length x2.entries.length with hl | hl <;>
  rcases eq_or_ne x1.blk.idx x2.blk.idx with hi | hi <;>
  rcases eq_or_ne x1.blk.nLines x2.blk.nLines with hn | hn <;>
  cases hd1 : Dec.deq x1.blk.llx x2.blk.llx <;>
  cases hd2 : Dec.deq x1.blk.urx x2.blk.urx <;>
    simp [Blocks.swapRes, Blocks.swapErr, hh, hl, hi, hn, hd1, hd2, ne_comm,
      dec_deq_comm x2.blk.llx x1.blk.llx, dec_deq_comm x2.blk.urx x1.blk.urx,
      cmpLines_swap i x1.entries x2.entries 0]

theorem cmpAllAux_swap (i : Nat) :
    ∀ (t1 t2 : List Blocks.Entry),
      Blocks.cmpAllAux i t2 t1 = Blocks.swapRes (Blocks.cmpAllAux i t1 t2) := by
  intro t1
  induction t1 generalizing i with
  | nil => intro t2; cases t2 <;> simp [Blocks.cmpAllAux, Blocks.swapRes]
  | cons x1 s1 ih =>
      intro t2
      cases t2 with
      | nil => simp [Blocks.cmpAllAux, Blocks.swapRes]
      | cons x2 s2 =>
          rw [show Blocks.cmpAllAux i (x1 :: s1) (x2 :: s2) =
            (match Blocks.cmpEntry i x1 x2 with
             | .error e => .error e
             | .ok _ => Blocks.cmpAllAux (i + 1) s1 s2) from rfl]
          rw [show Blocks.cmpAllAux i (x2 :: s2) (x1 :: s1) =
            (match Blocks.cmpEntry i x2 x1 with
             | .error e => .error e
             | .ok _ => Blocks.cmpAllAux (i + 1) s2 s1) from rfl]
          rw [cmpEntry_swap i x1 x2]
          cases hc : Blocks.cmpEntry i x1 x2 with
          | error e => simp [Blocks.swapRes]
          | ok u =>
              cases u
              simpa [Blocks.swapRes] using ih (i + 1) s2

/-- C8: comparing two traces in swapped order yields the mirrored result:
success maps to success and each divergence error maps to the same
divergence with its left and right contexts exchanged. -/
theorem c8_compare_antisymmetric (t1 t2 : List Blocks.Entry) :
    Blocks.compareTraces t2 t1 = Blocks.swapRes (Blocks.compareTraces t1 t2) := by
  unfold Blocks.compareTraces
  exact cmpAllAux_swap 0 t1 t2

end TraceCheck

namespace TraceCheck

theorem cmpAllAux_take (i : Nat) :
    ∀ (t1 t2 : List Blocks.Entry),
      Blocks.cmpAllAux i t1 t2 =
        Blocks.cmpAllAux i (t1.take (min t1.length t2.length))
          (t2.take (min t1.length t2.length)) := by
  intro t1
  induction t1 generalizing i with
  | nil => intro t2; simp [Blocks.cmpAllAux]
  | cons x1 s1 ih =>
      intro t2
      cases t2 with
      | nil => simp [Blocks.cmpAllAux]
      | cons x2 s2 =>
          simp only [List.length_cons, Nat.succ_min_succ, List.take_succ_cons]
          rw [show Blocks.cmpAllAux i (x1 :: s1) (x2 :: s2) =
            (match Blocks.cmpEntry i x1 x2 with
             | .error e => .error e
             | .ok _ => Blocks.cmpAllAux (i + 1) s1 s2) from rfl]
          rw [show Blocks.cmpAllAux i (x1 :: s1.take (min s1.length s2.length))
              (x2 :: s2.take (min s1.length s2.length)) =
            (match Blocks.cmpEntry i x1 x2 with
             | .error e => .error e
             | .ok _ => Blocks.cmpAllAux (i + 1)
                 (s1.take (min s1.length s2.length))
                 (s2.take (min s1.length s2.length))) from rfl]
          cases hc : Blocks.cmpEntry i x1 x2 with
          | error e => rfl
          | ok u => cases u; exact ih (i + 1) s2

/-- C3 (amended): the entry walk only ever examines the first min of the
two lengths aligned entry pairs, and an aligned entry pair with equal
headers but different line counts aborts with a length mismatch error for
that node. -/
theorem c3_truncation_amended :
    (∀ t1 t2 : List Blocks.Entry, Blocks.compareTraces t1 t2 =
        Blocks.compareTraces (t1.take (min t1.length t2.length))
          (t2.take (min t1.length t2.length)))
    ∧ (∀ (i : Nat) (x1 x2 : Blocks.Entry), x1.header = x2.header →
        x1.entries.length ≠ x2.entries.length →
        Blocks.cmpEntry i x1 x2 =
          .error (.lenNe i x1.entries.length x2.entries.length)) := by
  constructor
  · intro t1 t2
    unfold Blocks.compareTraces
    exact cmpAllAux_take 0 t1 t2
  · intro i x1 x2 hh hlen
    unfold Blocks.cmpEntry
    rw [if_neg (by simp [hh]), if_pos hlen]

/-- C3 counterexample: with differing line counts inside the first entry
pair, the comparison aborts with a single length error and never reaches
the second entry pair, which also disagrees: the gap is not recorded as
data and the walk does not continue past it. -/
theorem c3_counterexample :
    Blocks.compareTraces [c3xA, c3xC] [c3xB, c3xD] = .error (.lenNe 0 2 1)
    ∧ Blocks.lineAgree c3l1 c3l1d = false :=
  ⟨by decide, by decide⟩

/-- C3 witness: the amended theorem applied at concrete traces of lengths
one and two, and at a concrete entry pair with line counts two and one. -/
theorem c3_truncation_witness :
    Blocks.compareTraces [c3xA] [c3xB, c3xD] =
      Blocks.compareTraces
        ([c3xA].take (min [c3xA].length [c3xB, c3xD].length))
        ([c3xB, c3xD].take (min [c3xA].length [c3xB, c3xD].length))
    ∧ Blocks.cmpEntry 0 c3xA c3xB = .error (.lenNe 0 2 1) :=
  ⟨c3_truncation_amended.1 [c3xA] [c3xB, c3xD],
   c3_truncation_amended.2 0 c3xA c3xB (by decide) (by decide)⟩

end TraceCheck

namespace TraceCheck


theorem poolsInv_append (ps : List (BlockPools.PPool × List BlockPools.PWord))
    (p : BlockPools.PPool) (ws : List BlockPools.PWord)
    (h : BlockPools.poolsInv ps) (hw : ws.length = p.nWords) :
    BlockPools.poolsInv (ps ++ [(p, ws)]) := by
  intro pw hpw
  rcases List.mem_append.mp hpw with h1 | h1
  · exact h pw h1
  · simp only [List.mem_singleton] at h1
    subst h1
    exact hw

theorem blocksInv_append (blocks : List BlockPools.Block)
    (h : String) (b : BlockPools.PBlock)
    (ps : List (BlockPools.PPool × List BlockPools.PWord))
    (hb : BlockPools.blocksInv blocks) (hlen : (ps.length : Int) = b.nPools)
    (hps : BlockPools.poolsInv ps) :
    BlockPools.blocksInv (blocks ++ [(h, b, ps)]) := by
  intro x hx
  rcases List.mem_append.mp hx with h1 | h1
  · exact hb x h1
  · simp only [List.mem_singleton] at h1
    subst h1
    exact ⟨hlen, hps⟩

theorem bp_sealStep_inv (blocks : List BlockPools.Block) (m : BlockPools.Mode)
    (hb : BlockPools.blocksInv blocks) (hm : BlockPools.modeInv m) :
    BlockPools.blocksInv (BlockPools.sealStep blocks m).1 ∧
      BlockPools.modeInv (BlockPools.sealStep blocks m).2 := by
  cases m with
  | idle => exact ⟨hb, trivial⟩
  | expectBlock h => exact ⟨hb, trivial⟩
  | inBlock h b ps =>
      unfold BlockPools.sealStep
      by_cases hc : (ps.length : Int) = b.nPools
      · simp only [if_pos hc]
        exact ⟨blocksInv_append blocks h b ps hb hc hm, trivial⟩
      · simp only [if_neg hc]
        exact ⟨hb, hm⟩
  | inPool h b ps p ws =>
      unfold BlockPools.sealStep
      by_cases hw : ws.length = p.nWords
      · simp only [if_pos hw]
        have hps2 : BlockPools.poolsInv (ps ++ [(p, ws)]) :=
          poolsInv_append ps p ws hm hw
        by_cases hc : ((ps ++ [(p, ws)]).length : Int) = b.nPools
        · simp only [if_pos hc]
          exact ⟨blocksInv_append blocks h b _ hb hc hps2, trivial⟩
        · simp only [if_neg hc]
          exact ⟨hb, hps2⟩
      · simp only [if_neg hw]
        exact ⟨hb, hm⟩

theorem bp_dispatch_modeInv (i : Nat) (line : String) (m m2 : BlockPools.Mode)
    (h : BlockPools.dispatch i line m = .ok m2) (hm : BlockPools.modeInv m) :
    BlockPools.modeInv m2 := by
  cases m with
  | idle =>
      unfold BlockPools.dispatch at h
      cases hb : matchBlk0 line with
      | some hd => rw [hb] at h; cases h; trivial
      | none => rw [hb] at h; cases h; trivial
  | expectBlock hd =>
      unfold BlockPools.dispatch at h
      cases hp : BlockPools.parseBlock i line with
      | error e => rw [hp] at h; cases h
      | ok b =>
          rw [hp] at h
          cases h
          intro pw hpw
          cases hpw
  | inBlock hd b ps =>
      unfold BlockPools.dispatch at h
      cases hp : BlockPools.parsePool i line with
      | error e => rw [hp] at h; cases h
      | ok p => rw [hp] at h; cases h; exact hm
  | inPool hd b ps p ws =>
      unfold BlockPools.dispatch at h
      cases hp : BlockPools.parseWord i line with
      | error e => rw [hp] at h; cases h
      | ok w => rw [hp] at h; cases h; exact hm

end TraceCheck

namespace TraceCheck

theorem bp_boundsOk_iff (m : BlockPools.Mode) :
    BlockPools.boundsOk m = true ↔ BlockPools.boundsProp m := by
  cases m <;> simp [BlockPools.boundsOk, BlockPools.boundsProp]

theorem bp_step_inv (st st2 : BlockPools.ScState) (raw : String)
    (h : BlockPools.step st raw = .ok st2) (hi : BlockPools.stInv st) :
    BlockPools.stInv st2 := by
  unfold BlockPools.step at h
  simp only [] at h
  by_cases hl : pyStrip (chomp raw) = ""
  · rw [if_pos hl] at h
    cases h
    exact hi
  · rw [if_neg hl] at h
    have hseal := bp_sealStep_inv st.blocks st.mode hi.1 hi.2
    cases hd : BlockPools.dispatch (st.i + 1) (pyStrip (chomp raw))
        (BlockPools.sealStep st.blocks st.mode).2 with
    | error e => simp only [hd] at h; cases h
    | ok m2 =>
        simp only [hd] at h
        by_cases hb : BlockPools.boundsOk m2 = true
        · rw [if_pos hb] at h
          cases h
          exact ⟨hseal.1, bp_dispatch_modeInv _ _ _ _ hd hseal.2⟩
        · rw [if_neg hb] at h
          cases h

theorem bp_step_bounds (st st2 : BlockPools.ScState) (raw : String)
    (h : BlockPools.step st raw = .ok st2)
    (hb : BlockPools.boundsProp st.mode) :
    BlockPools.boundsProp st2.mode := by
  unfold BlockPools.step at h
  simp only [] at h
  by_cases hl : pyStrip (chomp raw) = ""
  · rw [if_pos hl] at h
    cases h
    exact hb
  · rw [if_neg hl] at h
    cases hd : BlockPools.dispatch (st.i + 1) (pyStrip (chomp raw))
        (BlockPools.sealStep st.blocks st.mode).2 with
    | error e => simp only [hd] at h; cases h
    | ok m2 =>
        simp only [hd] at h
        by_cases hok : BlockPools.boundsOk m2 = true
        · rw [if_pos hok] at h
          cases h
          exact (bp_boundsOk_iff m2).mp hok
        · rw [if_neg hok] at h
          cases h

theorem runList_cons_error {σ ε : Type} (f : σ → String → Except ε σ)
    (s : σ) (a : String) (t : List String) (e : ε) (h : f s a = .error e) :
    runList f s (a :: t) = .error e := by
  unfold runList
  rw [h]

theorem runList_cons_ok {σ ε : Type} (f : σ → String → Except ε σ)
    (s s2 : σ) (a : String) (t : List String) (h : f s a = .ok s2) :
    runList f s (a :: t) = runList f s2 t := by
  conv_lhs => unfold runList
  rw [h]

theorem runList_preserve {σ ε : Type} (f : σ → String → Except ε σ)
    (P : σ → Prop)
    (hstep : ∀ s s2 a, f s a = .ok s2 → P s → P s2) :
    ∀ (l : List String) (s s2 : σ), runList f s l = .ok s2 → P s → P s2 := by
  intro l
  induction l with
  | nil =>
      intro s s2 h hp
      unfold runList at h
      cases h
      exact hp
  | cons a t ih =>
      intro s s2 h hp
      cases hfa : f s a with
      | error e =>
          rw [runList_cons_error f s a t e hfa] at h
          cases h
      | ok s3 =>
          rw [runList_cons_ok f s s3 a t hfa] at h
          exact ih s3 s2 h (hstep s s3 a hfa hp)

/-- C4: every block sealed by a successful block_pools.py scan satisfies
the declared count invariant: its pool list length equals the declared
pools count and every sealed pool holds exactly its declared word count;
and after every successful loop step the accumulated counts of the open
node never exceed the declared counts. -/
theorem c4_declared_counts :
    (∀ (raws : List String) (blocks : List BlockPools.Block),
        BlockPools.scan raws = .ok blocks → BlockPools.blocksInv blocks)
    ∧ (∀ (raws : List String) (st : BlockPools.ScState),
        BlockPools.run raws = .ok st → BlockPools.boundsProp st.mode) := by
  constructor
  · intro raws blocks h
    unfold BlockPools.scan at h
    cases hr : BlockPools.run raws with
    | error e => rw [hr] at h; cases h
    | ok st =>
        rw [hr] at h
        cases h
        have : BlockPools.stInv st :=
          runList_preserve BlockPools.step BlockPools.stInv
            (fun s s2 a hsa hp => bp_step_inv s s2 a hsa hp)
            raws ⟨0, [], .idle⟩ st hr
            ⟨fun b hb => absurd hb (List.not_mem_nil b), trivial⟩
        exact this.1
  · intro raws st h
    exact runList_preserve BlockPools.step
      (fun s => BlockPools.boundsProp s.mode)
      (fun s s2 a hsa hp => bp_step_bounds s s2 a hsa hp)
      raws ⟨0, [], .idle⟩ st h trivial

end TraceCheck


namespace TraceCheck


/-- C4 witness: the invariant theorem applied to a concrete trace of one
block and to a prefix of it that leaves a pool open. -/
theorem c4_declared_counts_witness :
    BlockPools.blocksInv [c4block] ∧ BlockPools.boundsProp c4st4.mode :=
  ⟨c4_declared_counts.1 c4raws [c4block] (by decide),
   c4_declared_counts.2 (c4raws.take 4) c4st4 (by decide)⟩

end TraceCheck

namespace TraceCheck

theorem runList_error_append {σ ε : Type} (f : σ → String → Except ε σ)
    (st : σ) (l1 l2 : List String) (e : ε) (h : runList f st l1 = .error e) :
    runList f st (l1 ++ l2) = .error e := by
  induction l1 generalizing st with
  | nil => simp [runList] at h
  | cons a t ih =>
      cases hfa : f st a with
      | error e2 =>
          rw [runList_cons_error f st a t e2 hfa] at h
          rw [List.cons_append, runList_cons_error f st a (t ++ l2) e2 hfa]
          exact h
      | ok s2 =>
          rw [runList_cons_ok f st s2 a t hfa] at h
          rw [List.cons_append, runList_cons_ok f st s2 a (t ++ l2) hfa]
          exact ih s2 h

theorem chomp_relift (l : String) :
    chomp (String.mk l.data.dropLast ++ "\n") = chomp l := by
  have h : (String.mk l.data.dropLast ++ "\n").data = l.data.dropLast ++ ['\n'] := rfl
  unfold chomp
  rw [h, List.dropLast_concat]

theorem scanText_chomped (raws : List String) :
    TextScan.scan (raws.map (fun l => String.mk l.data.dropLast ++ "\n")) =
      TextScan.scan raws := by
  unfold TextScan.scan
  rw [List.foldl_map]
  congr 1
  funext st raw
  show TextScan.scanStep st (String.mk raw.data.dropLast ++ "\n") = TextScan.scanStep st raw
  unfold TextScan.scanStep
  rw [chomp_relift]

/-- C10: the text.py scan drops the final character of each raw line
before classification, so scanning is unchanged when every line is
rewritten stripped of its last character with a newline appended; a
doShowText line without a trailing newline is not classified, and the
same line with the newline is. -/
theorem c10_scan_text :
    (∀ raws : List String,
        TextScan.scan (raws.map (fun l => String.mk l.data.dropLast ++ "\n")) =
          TextScan.scan raws)
    ∧ TextScan.scan [c10w] = (1, [])
    ∧ TextScan.scan [c10w ++ "\n"] = (1, [(1, "PERS", c10w)]) :=
  ⟨scanText_chomped, by decide, by decide⟩

/-- C5 counterexample: a block header declaring lines=1 followed directly
by a second block header aborts the block_lines.py scan with a no match
assertion on the unexpected header line, not with a structural gap record
naming the short node. -/
theorem c5_counterexample :
    BlockLines.scan c5raws = .error (.assertNoMatch 3 c5line3) := by decide

/-- C5 (amended): when a new block header arrives while the previous block
still expects line records, the scan fails fast: the unexpected header
fails the expected line pattern, the assertion error identifies that line,
and no continuation of the input changes the outcome. -/
theorem c5_abort_amended (tail : List String) :
    BlockLines.scan (c5raws ++ tail) = .error (.assertNoMatch 3 c5line3) := by
  have h : BlockLines.run c5raws = .error (.assertNoMatch 3 c5line3) := by decide
  have h2 : BlockLines.run (c5raws ++ tail) = .error (.assertNoMatch 3 c5line3) :=
    runList_error_append _ _ _ _ _ h
  unfold BlockLines.scan
  rw [h2]

/-- C2 counterexample: pools.py compares base values exactly, so two word
entries whose bases differ by 0.04 (inside the claimed 0.1 tolerance)
already abort the instance comparison with a base mismatch error. -/
theorem c2_counterexample :
    Pools.compareInstance (1, "initial words", [(0, [(24, [c2w1])])])
        (1, "initial words", [(0, [(24, [c2w2])])]) =
      .error (.wBase 0 0 c2w1 c2w2)
    ∧ Dec.absLt c2w1.base c2w2.base Pools.TOL = true :=
  ⟨by decide, by decide⟩

/-- C7 counterexample: when the noise marker test differs between the two
texts, the pools.py comparator returns success with only a logged marker
message even though the texts differ: the mismatch is not recorded as a
divergence. -/
theorem c7_counterexample :
    Pools.compareInstance (1, "h", [(0, [(24, [c7w1])])])
        (1, "h", [(0, [(24, [c7w2])])]) =
      .ok [Pools.ciMsg 0 "w1line" "w2line"]
    ∧ c7w1.text ≠ c7w2.text
    ∧ Pools.exclude c7w1.text = true ∧ Pools.exclude c7w2.text = false :=
  ⟨by decide, by decide, by decide, by decide⟩

/-- C1 counterexample: two traces that parse successfully differ in one line
record, and the comparison aborts at the first divergence with a base
mismatch error instead of enumerating all divergences as returned data. -/
theorem c1_counterexample :
    (Blocks.scan c1f1).isOk = true ∧ (Blocks.scan c1f2).isOk = true ∧
    Blocks.compareTraces ((Blocks.scan c1f1).toOption.getD [])
        ((Blocks.scan c1f2).toOption.getD []) =
      .error (.lnBase 0 0 c1e1 c1e2) :=
  ⟨by decide, by decide, by decide⟩

/-- C6: blocklist.py does not skip a group whose title differs from the
requested one: the assert False placed before the continue statement
aborts the scan at the first non matching title, as this concrete run
shows; the continue is dead code and no filtered list is returned. -/
theorem c6_assert_false_unsorted :
    BlockList.scan (some "sorted") c6raws =
      .error (.assertFalseTitle 1 "showBlockList: unsorted : 21") := by decide

end TraceCheck
namespace TraceCheck

theorem eq_cross (A B E1 E2 : ℚ) (h1 : 0 < E1) (h2 : 0 < E2) :
    A * E2 = B * E1 ↔ A / E1 = B / E2 := by
  rw [div_eq_div_iff h1.ne' h2.ne']

theorem abs_cross_lt (A B T E1 E2 E3 : ℚ) (h1 : 0 < E1) (h2 : 0 < E2)
    (h3 : 0 < E3) :
    |A * E2 - B * E1| * E3 < T * (E1 * E2) ↔ |A / E1 - B / E2| < T / E3 := by
  rw [div_sub_div _ _ h1.ne' h2.ne', abs_div, abs_of_pos (mul_pos h1 h2),
    div_lt_div_iff₀ (mul_pos h1 h2) h3, mul_comm E1 B]

theorem dec_deq_iff (a b : Dec) : Dec.deq a b = true ↔ a.toQ = b.toQ := by
  unfold Dec.deq Dec.toQ
  rw [decide_eq_true_iff]
  rw [← eq_cross (a.num : ℚ) (b.num : ℚ) ((10 : ℚ) ^ a.exp) ((10 : ℚ) ^ b.exp)
    (by positivity) (by positivity)]
  constructor
  · intro h
    exact_mod_cast h
  · intro h
    exact_mod_cast h

theorem dec_absLt_iff (a b t : Dec) :
    Dec.absLt a b t = true ↔ |a.toQ - b.toQ| < t.toQ := by
  unfold Dec.absLt Dec.toQ
  rw [decide_eq_true_iff]
  rw [← abs_cross_lt (a.num : ℚ) (b.num : ℚ) (t.num : ℚ) ((10 : ℚ) ^ a.exp)
    ((10 : ℚ) ^ b.exp) ((10 : ℚ) ^ t.exp) (by positivity) (by positivity)
    (by positivity)]
  rw [show ((10 : ℚ) ^ a.exp * (10 : ℚ) ^ b.exp) = (10 : ℚ) ^ (a.exp + b.exp) by
    rw [pow_add]]
  rw [← Int.abs_eq_natAbs]
  constructor
  · intro h
    exact_mod_cast h
  · intro h
    exact_mod_cast h

end TraceCheck
namespace TraceCheck

/-- C2 (amended): the blocks.py comparator judges two numbers equal exactly
when their absolute difference is below the 0.1 tolerance: a base
difference of 0.04 passes and a difference of exactly 0.1 is divergent,
while the pools.py comparator uses exact equality instead. -/
theorem c2_tolerance_amended :
    (∀ a b : Dec, Blocks.equal a b = true ↔ |a.toQ - b.toQ| < 1 / 10)
    ∧ Blocks.cmpLinePair 0 0 c2e1 c2e2 = .ok ()
    ∧ |c2e1.base.toQ - c2e2.base.toQ| = 4 / 100
    ∧ Blocks.cmpLinePair 0 0 c2e1 c2e3 = .error (.lnBase 0 0 c2e1 c2e3)
    ∧ |c2e1.base.toQ - c2e3.base.toQ| = 1 / 10 := by
  refine ⟨?_, by decide, ?_, by decide, ?_⟩
  · intro a b
    unfold Blocks.equal
    rw [dec_absLt_iff]
    norm_num [Dec.toQ, Blocks.TOL]
  · simp [c2e1, c2e2, Dec.toQ]
    norm_num
  · simp [c2e1, c2e3, Dec.toQ]
    norm_num

/-- C7 (amended): for word pairs that agree on all numeric fields and whose
texts differ in the noise marker test, the comparator logs one marker
message, skips the text check entirely and returns success. -/
theorem c7_exclude_skip_amended (w1 w2 : Pools.PWord)
    (hb : Dec.deq w1.base w2.base = true) (hl : Dec.deq w1.llx w2.llx = true)
    (hu : Dec.deq w1.urx w2.urx = true)
    (hf : Dec.deq w1.fontsize w2.fontsize = true)
    (hx : Pools.exclude w1.text ≠ Pools.exclude w2.text) :
    Pools.cmpWords 0 0 [w1] [w2] = .ok [Pools.ciMsg 0 w1.line w2.line] := by
  cases hx1 : Pools.exclude w1.text <;> cases hx2 : Pools.exclude w2.text <;>
    simp_all [Pools.cmpWords, Except.map]

/-- C7 witness: the amended theorem applied at a concrete word pair whose
texts differ with the marker present on the left only. -/
theorem c7_exclude_skip_witness :
    Pools.cmpWords 0 0 [c7w1] [c7w2] = .ok [Pools.ciMsg 0 c7w1.line c7w2.line] :=
  c7_exclude_skip_amended c7w1 c7w2 (by decide) (by decide) (by decide) (by decide)
    (by decide)

end TraceCheck
namespace TraceCheck

theorem cmpLinePair_ok_iff (i j : Nat) (e1 e2 : Blocks.LineEnt) :
    Blocks.cmpLinePair i j e1 e2 = .ok () ↔ Blocks.lineAgree e1 e2 = true := by
  unfold Blocks.cmpLinePair Blocks.lineAgree
  split_ifs with h1 h2 h3 h4 <;> simp_all

theorem cmpLines_ok_iff (i : Nat) :
    ∀ (l1 l2 : List Blocks.LineEnt) (j : Nat),
      Blocks.cmpLines i j l1 l2 = .ok () ↔
        (l1.zip l2).all (fun p => Blocks.lineAgree p.1 p.2) = true := by
  intro l1
  induction l1 with
  | nil => intro l2 j; cases l2 <;> simp [Blocks.cmpLines]
  | cons e1 t1 ih =>
      intro l2 j
      cases l2 with
      | nil => simp [Blocks.cmpLines]
      | cons e2 t2 =>
          rw [show Blocks.cmpLines i j (e1 :: t1) (e2 :: t2) =
            (match Blocks.cmpLinePair i j e1 e2 with
             | .error e => .error e
             | .ok _ => Blocks.cmpLines i (j + 1) t1 t2) from rfl]
          cases hc : Blocks.cmpLinePair i j e1 e2 with
          | error e =>
              have hna : Blocks.lineAgree e1 e2 = false := by
                rcases Bool.eq_false_or_eq_true (Blocks.lineAgree e1 e2) with h | h
                · exact absurd ((cmpLinePair_ok_iff i j e1 e2).mpr h)
                    (by simp [hc])
                · exact h
              simp [hna]
          | ok u =>
              cases u
              have ha : Blocks.lineAgree e1 e2 = true :=
                (cmpLinePair_ok_iff i j e1 e2).mp hc
              simp [ha, ih t2 (j + 1)]

theorem cmpEntry_ok_iff (i : Nat) (x1 x2 : Blocks.Entry) :
    Blocks.cmpEntry i x1 x2 = .ok () ↔ Blocks.entryAgree x1 x2 = true := by
  unfold Blocks.cmpEntry Blocks.entryAgree
  split_ifs with h1 h2 h3 h4 h5 h6 <;> simp_all [cmpLines_ok_iff]

theorem cmpAllAux_ok_iff (i : Nat) :
    ∀ (t1 t2 : List Blocks.Entry),
      Blocks.cmpAllAux i t1 t2 = .ok () ↔
        (t1.zip t2).all (fun p => Blocks.entryAgree p.1 p.2) = true := by
  intro t1
  induction t1 generalizing i with
  | nil => intro t2; cases t2 <;> simp [Blocks.cmpAllAux]
  | cons x1 s1 ih =>
      intro t2
      cases t2 with
      | nil => simp [Blocks.cmpAllAux]
      | cons x2 s2 =>
          rw [show Blocks.cmpAllAux i (x1 :: s1) (x2 :: s2) =
            (match Blocks.cmpEntry i x1 x2 with
             | .error e => .error e
             | .ok _ => Blocks.cmpAllAux (i + 1) s1 s2) from rfl]
          cases hc : Blocks.cmpEntry i x1 x2 with
          | error e =>
              have hna : Blocks.entryAgree x1 x2 = false := by
                rcases Bool.eq_false_or_eq_true (Blocks.entryAgree x1 x2) with h | h
                · exact absurd ((cmpEntry_ok_iff i x1 x2).mpr h) (by simp [hc])
                · exact h
              simp [hna]
          | ok u =>
              cases u
              have ha : Blocks.entryAgree x1 x2 = true :=
                (cmpEntry_ok_iff i x1 x2).mp hc
              simp [ha, ih (i + 1) s2]

/-- C1 (amended): the comparison of two parsed traces succeeds exactly when
every aligned pair of entries agrees on header, geometry fields, counts and
line records; on the first disagreement it aborts with that divergence as
the error value, so divergences past the first are never enumerated. -/
theorem c1_compare_iff_agree (t1 t2 : List Blocks.Entry) :
    Blocks.compareTraces t1 t2 = .ok () ↔ Blocks.agreeAll t1 t2 = true := by
  unfold Blocks.compareTraces Blocks.agreeAll
  exact cmpAllAux_ok_iff 0 t1 t2

end TraceCheck
namespace TraceCheck

theorem round2_eq_floor (d : Dec) :
    Words.round2 d = ⌊(100 : ℚ) * d.toQ + 1 / 2⌋ := by
  have hp : (0 : ℤ) ≤ 2 * (10 : ℤ) ^ d.exp := by positivity
  unfold Words.round2
  rw [Int.fdiv_eq_ediv _ hp]
  have h2 : ((2 * 10 ^ d.exp : ℕ) : ℤ) = 2 * (10 : ℤ) ^ d.exp := by
    push_cast
    ring
  rw [← h2, ← Rat.floor_intCast_div_natCast]
  congr 1
  unfold Dec.toQ
  have h10 : ((10 : ℚ) ^ d.exp) ≠ 0 := by positivity
  push_cast
  field_simp
  ring

theorem round2_congr (a b : Dec) (h : Dec.deq a b = true) :
    Words.round2 a = Words.round2 b := by
  rw [round2_eq_floor, round2_eq_floor, (dec_deq_iff a b).mp h]

theorem badIds_nodup (m1 m2 : List Words.WMatch) :
    (Words.badIds m1 m2).Nodup :=
  (List.nodup_range _).filter _

theorem mem_badIds (m1 m2 : List Words.WMatch) (i : Nat) :
    i ∈ Words.badIds m1 m2 ↔
      i < Words.nmin m1 m2 ∧ Words.wbad m1 m2 i = true := by
  simp [Words.badIds, List.mem_filter, List.mem_range]

theorem pam2_some (m1 m2 : List Words.WMatch) (k : Int × String) (j : Nat)
    (h : Words.pam2 m1 m2 k = some j) :
    j < Words.nmin m1 m2 ∧ Words.wkey (Words.wget m2 j) = k := by
  unfold Words.pam2 at h
  have hj := List.mem_of_mem_getLast? h
  simp only [List.mem_filter, List.mem_range, decide_eq_true_iff] at hj
  exact hj

theorem pam2_isSome (m1 m2 : List Words.WMatch) (k : Int × String) (j : Nat)
    (hj : j < Words.nmin m1 m2) (hk : Words.wkey (Words.wget m2 j) = k) :
    ∃ j2, Words.pam2 m1 m2 k = some j2 := by
  unfold Words.pam2
  have hmem : j ∈ (List.range (Words.nmin m1 m2)).filter
      (fun j2 => decide (Words.wkey (Words.wget m2 j2) = k)) := by
    simp only [List.mem_filter, List.mem_range, decide_eq_true_iff]
    exact ⟨hj, hk⟩
  have hne := List.ne_nil_of_mem hmem
  exact Option.isSome_iff_exists.mp (List.getLast?_isSome.mpr hne)

theorem wbad_false_parts (m1 m2 : List Words.WMatch) (i : Nat)
    (h : Words.wbad m1 m2 i = false) :
    (Words.wget m1 i).idx = (Words.wget m2 i).idx ∧
    (Words.wget m1 i).text = (Words.wget m2 i).text ∧
    Dec.deq (Words.wget m1 i).base (Words.wget m2 i).base = true := by
  unfold Words.wbad at h
  simp only [Bool.or_eq_false_iff, decide_eq_false_iff_not, not_not,
    Bool.not_eq_false'] at h
  exact ⟨h.1.1, h.1.2, h.2⟩

theorem wkey_eq_of_not_bad (m1 m2 : List Words.WMatch) (i : Nat)
    (h : Words.wbad m1 m2 i = false) :
    Words.wkey (Words.wget m1 i) = Words.wkey (Words.wget m2 i) := by
  obtain ⟨h1, h2, h3⟩ := wbad_false_parts m1 m2 i h
  unfold Words.wkey
  rw [h2, round2_congr _ _ h3]

end TraceCheck

namespace TraceCheck

theorem edges_bad (m1 m2 : List Words.WMatch)
    (hinj1 : ∀ i1 i2, i1 < Words.nmin m1 m2 → i2 < Words.nmin m1 m2 →
      Words.wkey (Words.wget m1 i1) = Words.wkey (Words.wget m1 i2) → i1 = i2)
    (hcover : ∀ i, i < Words.nmin m1 m2 →
      ∃ j, j < Words.nmin m1 m2 ∧
        Words.wkey (Words.wget m2 j) = Words.wkey (Words.wget m1 i))
    (i : Nat) (hi : i ∈ Words.badIds m1 m2) :
    ∃ j, Words.edges m1 m2 i = some j ∧ j ∈ Words.badIds m1 m2 := by
  obtain ⟨hin, hbad⟩ := (mem_badIds m1 m2 i).mp hi
  obtain ⟨j, hj, hk⟩ := hcover i hin
  obtain ⟨j2, hj2⟩ := pam2_isSome m1 m2 (Words.wkey (Words.wget m1 i)) j hj hk
  refine ⟨j2, hj2, ?_⟩
  obtain ⟨hj2n, hj2k⟩ := pam2_some m1 m2 _ j2 hj2
  rw [mem_badIds]
  refine ⟨hj2n, ?_⟩
  rcases Bool.eq_false_or_eq_true (Words.wbad m1 m2 j2) with hb | hb
  · exact hb
  · exfalso
    have hkey : Words.wkey (Words.wget m1 j2) = Words.wkey (Words.wget m1 i) := by
      rw [wkey_eq_of_not_bad m1 m2 j2 hb]
      exact hj2k
    have := hinj1 j2 i hj2n hin hkey
    subst this
    simp [hb] at hbad

theorem efun_inj_on_bad (m1 m2 : List Words.WMatch)
    (hinj1 : ∀ i1 i2, i1 < Words.nmin m1 m2 → i2 < Words.nmin m1 m2 →
      Words.wkey (Words.wget m1 i1) = Words.wkey (Words.wget m1 i2) → i1 = i2)
    (hcover : ∀ i, i < Words.nmin m1 m2 →
      ∃ j, j < Words.nmin m1 m2 ∧
        Words.wkey (Words.wget m2 j) = Words.wkey (Words.wget m1 i))
    (i1 : Nat) (hi1 : i1 ∈ Words.badIds m1 m2)
    (i2 : Nat) (hi2 : i2 ∈ Words.badIds m1 m2)
    (h : Words.efun m1 m2 i1 = Words.efun m1 m2 i2) : i1 = i2 := by
  obtain ⟨j1, he1, _⟩ := edges_bad m1 m2 hinj1 hcover i1 hi1
  obtain ⟨j2, he2, _⟩ := edges_bad m1 m2 hinj1 hcover i2 hi2
  have hf1 : Words.efun m1 m2 i1 = j1 := by
    unfold Words.efun
    rw [he1]
    rfl
  have hf2 : Words.efun m1 m2 i2 = j2 := by
    unfold Words.efun
    rw [he2]
    rfl
  rw [hf1, hf2] at h
  subst h
  obtain ⟨_, hk1⟩ := pam2_some m1 m2 _ j1 he1
  obtain ⟨_, hk2⟩ := pam2_some m1 m2 _ j1 he2
  have hin1 := ((mem_badIds m1 m2 i1).mp hi1).1
  have hin2 := ((mem_badIds m1 m2 i2).mp hi2).1
  exact hinj1 i1 i2 hin1 hin2 (hk1.symm.trans hk2)

theorem iterate_mem_list {f : Nat → Nat} {S : List Nat}
    (hf : ∀ x ∈ S, f x ∈ S) (i : Nat) (hi : i ∈ S) (k : Nat) :
    f^[k] i ∈ S := by
  induction k with
  | zero => simpa using hi
  | succ k ih =>
      rw [Function.iterate_succ_apply']
      exact hf _ ih

theorem iterate_injOn_list {f : Nat → Nat} {S : List Nat}
    (hf : ∀ x ∈ S, f x ∈ S)
    (hinj : ∀ x ∈ S, ∀ y ∈ S, f x = f y → x = y) (k : Nat) :
    ∀ x ∈ S, ∀ y ∈ S, f^[k] x = f^[k] y → x = y := by
  induction k with
  | zero =>
      intro x hx y hy h
      simpa using h
  | succ k ih =>
      intro x hx y hy h
      rw [Function.iterate_succ_apply', Function.iterate_succ_apply'] at h
      exact ih x hx y hy
        (hinj _ (iterate_mem_list hf x hx k) _ (iterate_mem_list hf y hy k) h)

theorem cycle_return {f : Nat → Nat} {S : List Nat} (hnd : S.Nodup)
    (hf : ∀ x ∈ S, f x ∈ S)
    (hinj : ∀ x ∈ S, ∀ y ∈ S, f x = f y → x = y)
    (i : Nat) (hi : i ∈ S) :
    ∃ k, 0 < k ∧ k ≤ S.length ∧ f^[k] i = i := by
  have hcard : S.toFinset.card = S.length := List.toFinset_card_of_nodup hnd
  have hmaps : ∀ k ∈ Finset.range (S.length + 1), f^[k] i ∈ S.toFinset := by
    intro k _
    rw [List.mem_toFinset]
    exact iterate_mem_list hf i hi k
  have hlt : S.toFinset.card < (Finset.range (S.length + 1)).card := by
    simp [hcard]
  obtain ⟨k1, hk1, k2, hk2, hne, heq⟩ :=
    Finset.exists_ne_map_eq_of_card_lt_of_maps_to hlt hmaps
  simp only [Finset.mem_range] at hk1 hk2
  rcases hne.lt_or_lt with hlt2 | hlt2
  · refine ⟨k2 - k1, by omega, by omega, ?_⟩
    have h3 : f^[k1] (f^[k2 - k1] i) = f^[k1] i := by
      rw [← Function.iterate_add_apply, show k1 + (k2 - k1) = k2 by omega]
      exact heq.symm
    exact iterate_injOn_list hf hinj k1 _
      (iterate_mem_list hf i hi _) i hi h3
  · refine ⟨k1 - k2, by omega, by omega, ?_⟩
    have h3 : f^[k2] (f^[k1 - k2] i) = f^[k2] i := by
      rw [← Function.iterate_add_apply, show k2 + (k1 - k2) = k1 by omega]
      exact heq
    exact iterate_injOn_list hf hinj k2 _
      (iterate_mem_list hf i hi _) i hi h3

end TraceCheck

namespace TraceCheck

/-- C9: in the permuted match mode, when the left keys are distinct below n
and every left key occurs on the right, the edge map is defined on every
mismatched index and lands in the mismatched indices, it is injective
there, and iterating it from any mismatched index returns to that index
within len(badIds) steps: every mismatched entry lies on one finite
permutation cycle. -/
theorem c9_permutation_cycles (m1 m2 : List Words.WMatch)
    (hinj1 : ∀ i1 i2, i1 < Words.nmin m1 m2 → i2 < Words.nmin m1 m2 →
      Words.wkey (Words.wget m1 i1) = Words.wkey (Words.wget m1 i2) → i1 = i2)
    (hcover : ∀ i, i < Words.nmin m1 m2 →
      ∃ j, j < Words.nmin m1 m2 ∧
        Words.wkey (Words.wget m2 j) = Words.wkey (Words.wget m1 i)) :
    (∀ i ∈ Words.badIds m1 m2,
      ∃ j, Words.edges m1 m2 i = some j ∧ j ∈ Words.badIds m1 m2)
    ∧ (∀ i1 ∈ Words.badIds m1 m2, ∀ i2 ∈ Words.badIds m1 m2,
        Words.efun m1 m2 i1 = Words.efun m1 m2 i2 → i1 = i2)
    ∧ (∀ i ∈ Words.badIds m1 m2,
        ∃ k, 0 < k ∧ k ≤ (Words.badIds m1 m2).length ∧
          (Words.efun m1 m2)^[k] i = i) := by
  refine ⟨edges_bad m1 m2 hinj1 hcover, efun_inj_on_bad m1 m2 hinj1 hcover, ?_⟩
  intro i hi
  refine cycle_return (badIds_nodup m1 m2) ?_ ?_ i hi
  · intro x hx
    obtain ⟨j, hej, hjb⟩ := edges_bad m1 m2 hinj1 hcover x hx
    have hfx : Words.efun m1 m2 x = j := by
      unfold Words.efun
      rw [hej]
      rfl
    rw [hfx]
    exact hjb
  · exact fun x hx y hy h => efun_inj_on_bad m1 m2 hinj1 hcover x hx y hy h

/-- C9 witness: the cycle theorem applied to the concrete permuted match
lists of three entries. -/
theorem c9_permutation_cycles_witness :
    ∃ k, 0 < k ∧ k ≤ (Words.badIds c9m1 c9m2).length ∧
      (Words.efun c9m1 c9m2)^[k] 0 = 0 :=
  (c9_permutation_cycles c9m1 c9m2
    (by
      intro i1 i2 h1 h2 hk
      rw [show Words.nmin c9m1 c9m2 = 3 from rfl] at h1 h2
      interval_cases i1 <;> interval_cases i2 <;>
        first | rfl | (exfalso; revert hk; decide))
    (by
      intro i h
      rw [show Words.nmin c9m1 c9m2 = 3 from rfl] at h
      interval_cases i
      · exact ⟨2, by decide, by decide⟩
      · exact ⟨0, by decide, by decide⟩
      · exact ⟨1, by decide, by decide⟩)).2.2 0 (by decide)

end TraceCheck
